import Mathlib

/-!
Verification of the capture-session coordinator of `src/server/main.js`
(vid_cap_tablet).  The server is a single-threaded event loop; we embed it
as a transition system: the global `captureState` object, the MongoDB
`videos` collection, the socket.io emissions and the upload-dispatcher
invocations form the state, and every HTTP command or ffmpeg lifecycle
callback is one atomic step.  A stop command (`stopPreview`, the
`/api/capture/stop` endpoint) races its subprocess `end`/`error` handlers
against a fixed timeout behind a one-shot `resolved` flag; the winning
trigger is passed to the step as a parameter, and a resolution by timeout
leaves the subprocess alive (the code sends SIGTERM but never force-kills),
so a later lifecycle event of that zombie process is a separate step.
-/

set_option maxHeartbeats 1000000

namespace VidCap

/-- Lifecycle status of a `videos` document (`status` field). -/
inductive Status
  | recording
  | completed
  | error
deriving DecidableEq

/-- One document of the `videos` collection.  Timestamps and free-text
fields are abstracted to presence flags; `sid` stands for the generated
`recordingId`. -/
structure Session where
  sid : Nat
  status : Status
  notes : String
  hasEnd : Bool
  hasDuration : Bool
  uploadedToRemote : Bool
  hasUploadError : Bool
  hasErrorDetail : Bool
deriving DecidableEq

/-- A socket.io emission (`io.emit`). -/
inductive Note
  | previewStarted
  | previewError
  | previewStopped
  | captureStarted (sid : Nat)
  | captureError
  | uploadComplete (sid : Nat)
  | uploadError
  | captureEnded (sid : Nat)
deriving DecidableEq

/-- A live preview subprocess (`captureState.previewProcess` and any
leftover preview process that outlived a timed-out stop). -/
structure PrevProc where
  pid : Nat
  startFired : Bool
deriving DecidableEq

/-- A live recording subprocess; its handlers close over the
`recordingId` of the session it was launched for. -/
structure RecProc where
  pid : Nat
  sid : Nat
  startFired : Bool
deriving DecidableEq

/-- The whole observable state: the mutable `captureState` fields, the
live subprocesses, the `videos` collection, the emissions so far and the
`uploadFile` invocations so far (by `recordingId`, in order). -/
structure St where
  isCapturing : Bool
  isPreviewing : Bool
  previewStopping : Bool
  stopRequested : Bool
  currentRecording : Option Nat
  previewHandle : Option Nat
  ffmpegHandle : Option Nat
  prevProcs : List PrevProc
  recProcs : List RecProc
  sessions : List Session
  events : List Note
  uploads : List Nat
  nextPid : Nat
  nextSid : Nat
deriving DecidableEq

/-- Server start-up state. -/
def initSt : St :=
  { isCapturing := false, isPreviewing := false, previewStopping := false,
    stopRequested := false, currentRecording := none, previewHandle := none,
    ffmpegHandle := none, prevProcs := [], recProcs := [], sessions := [],
    events := [], uploads := [], nextPid := 0, nextSid := 0 }

/-- `collection.updateOne(filter, update)`: rewrite the first matching
document, leave the rest untouched. -/
def updateFirst {α : Type} (p : α → Bool) (f : α → α) : List α → List α
  | [] => []
  | x :: rest => if p x then f x :: rest else x :: updateFirst p f rest

/-- Filter `{ recordingId: sid }`. -/
def bySid (sid : Nat) : Session → Bool := fun x => x.sid == sid

/-- `checkDeviceAccess` (main.js 131-159): probe the device up to
`maxRetries` times, succeeding on the first accessible probe, rejecting
after exhausting the retries.  `attempts` lists the outcome each
`fs.access` probe would report. -/
def checkDeviceAccess : List Bool → Nat → Bool
  | _, 0 => false
  | [], _ + 1 => false
  | ok :: rest, n + 1 => ok || checkDeviceAccess rest n

/-- `startPreview` (main.js 162-209): reject when previewing or capturing;
otherwise clear `previewStopping`, spawn the preview subprocess and return
`{success:true}` at once — `isPreviewing` is only set later by the
subprocess `start` callback. -/
def startPreview (s : St) : St × Bool :=
  if s.isPreviewing || s.isCapturing then
    (s, false)
  else
    ({ s with previewStopping := false,
              previewHandle := some s.nextPid,
              prevProcs := s.prevProcs ++ [⟨s.nextPid, false⟩],
              nextPid := s.nextPid + 1 }, true)

/-- The preview subprocess `start` callback (main.js 191-195). -/
def previewStartEv (pid : Nat) (s : St) : St :=
  if s.prevProcs.any (fun p => p.pid == pid && !p.startFired) then
    { s with prevProcs := s.prevProcs.map
               (fun p => if p.pid == pid then { p with startFired := true } else p),
             isPreviewing := true,
             events := s.events ++ [Note.previewStarted] }
  else s

/-- A preview subprocess exiting normally outside any stop call:
`startPreview` attaches no `end` handler, so nothing happens beyond the
process going away. -/
def previewEndEv (pid : Nat) (s : St) : St :=
  if s.prevProcs.any (fun p => p.pid == pid) then
    { s with prevProcs := s.prevProcs.filter (fun p => p.pid != pid) }
  else s

/-- The preview subprocess `error` callback outside any stop call
(main.js 196-205): suppressed while `previewStopping`, otherwise drops
`isPreviewing` and emits `previewError`. -/
def previewErrEv (pid : Nat) (s : St) : St :=
  if s.prevProcs.any (fun p => p.pid == pid) then
    if s.previewStopping then
      { s with prevProcs := s.prevProcs.filter (fun p => p.pid != pid) }
    else
      { s with prevProcs := s.prevProcs.filter (fun p => p.pid != pid),
               isPreviewing := false,
               events := s.events ++ [Note.previewError] }
  else s

/-- Which of the three racing resolution paths of a preview stop fires
first: the subprocess `end` handler, the subprocess `error` handler
(signal-15 and other errors behave identically there), or the 1000 ms
timeout. -/
inductive PTrig
  | ended
  | errored
  | timeout
deriving DecidableEq

/-- Whether a preview subprocess with this pid is still alive. -/
def previewAlive (s : St) (pid : Nat) : Bool :=
  s.prevProcs.any (fun p => p.pid == pid)

/-- `stopPreview` (main.js 212-265): no-op failure unless previewing with
a process handle; otherwise set `previewStopping`, SIGTERM the subprocess
and resolve by the first of {`end`, `error`, 1 s timeout}.  The `end` and
`error` paths reset the flags and emit `previewStopped`; the timeout path
resets the flags but emits nothing and leaves the subprocess alive.  A
dead subprocess can only resolve by timeout. -/
def stopPreview (trig : PTrig) (s : St) : St × Bool :=
  match s.previewHandle with
  | none => (s, false)
  | some pid =>
    if !s.isPreviewing then (s, false)
    else
      let s1 := { s with previewStopping := true }
      let eff := if previewAlive s1 pid then trig else PTrig.timeout
      match eff with
      | PTrig.timeout =>
          ({ s1 with isPreviewing := false, previewStopping := false }, true)
      | _ =>
          ({ s1 with isPreviewing := false, previewStopping := false,
                     prevProcs := s1.prevProcs.filter (fun p => p.pid != pid),
                     events := s1.events ++ [Note.previewStopped] }, true)

/-- Result of `startCapture`. -/
inductive StartCapRes
  | conflict
  | deviceUnavailable
  | started (sid : Nat)
deriving DecidableEq

/-- `startCapture` (main.js 268-439): reject while capturing; stop a
running preview first; run the device guard (failure aborts with no
session created); then insert the session in status `recording`, set the
capture flags and launch the combined recording+preview subprocess.
`prevTrig` is the resolution trigger of the inner `stopPreview`, `devOk`
the device-guard outcome. -/
def startCapture (notes : String) (prevTrig : PTrig) (devOk : Bool) (s : St) :
    St × StartCapRes :=
  if s.isCapturing then (s, StartCapRes.conflict)
  else
    let s1 := if s.isPreviewing then (stopPreview prevTrig s).1 else s
    if !devOk then (s1, StartCapRes.deviceUnavailable)
    else
      let sid := s1.nextSid
      let sess : Session :=
        { sid := sid, status := Status.recording, notes := notes,
          hasEnd := false, hasDuration := false, uploadedToRemote := false,
          hasUploadError := false, hasErrorDetail := false }
      ({ s1 with sessions := s1.sessions ++ [sess],
                 isCapturing := true,
                 currentRecording := some sid,
                 stopRequested := false,
                 previewHandle := none,
                 ffmpegHandle := some s1.nextPid,
                 recProcs := s1.recProcs ++ [⟨s1.nextPid, sid, false⟩],
                 nextPid := s1.nextPid + 1,
                 nextSid := sid + 1 }, StartCapRes.started sid)

/-- The recording subprocess `start` callback (main.js 361-364). -/
def captureStartEv (pid : Nat) (s : St) : St :=
  match s.recProcs.find? (fun p => p.pid == pid) with
  | none => s
  | some p =>
    if p.startFired then s
    else { s with recProcs := s.recProcs.map
                    (fun q => if q.pid == pid then { q with startFired := true } else q),
                  events := s.events ++ [Note.captureStarted p.sid] }

/-- `updateOne` payload of the recording `error` handler. -/
def markError (x : Session) : Session :=
  { x with status := Status.error, hasErrorDetail := true }

/-- `updateOne` payload finalizing a recording. -/
def markCompleted (x : Session) : Session :=
  { x with status := Status.completed, hasEnd := true, hasDuration := true }

/-- `updateOne` payload after a successful upload. -/
def markUploaded (x : Session) : Session :=
  { x with uploadedToRemote := true }

/-- `updateOne` payload after a failed upload. -/
def markUploadFailed (x : Session) : Session :=
  { x with uploadedToRemote := false, hasUploadError := true }

/-- The recording subprocess `error` handler (main.js 365-385): if stderr
shows `Exiting normally, received signal 15` the error is swallowed
(whether or not a stop was requested); otherwise `isCapturing` is cleared,
the session of this handler's closure is marked `error` and `captureError`
is emitted. -/
def captureErrEv (pid : Nat) (sig15 : Bool) (s : St) : St :=
  match s.recProcs.find? (fun p => p.pid == pid) with
  | none => s
  | some p =>
    let s1 := { s with recProcs := s.recProcs.filter (fun q => q.pid != pid) }
    if sig15 then s1
    else
      { s1 with isCapturing := false,
                sessions := updateFirst (bySid p.sid) markError s1.sessions,
                events := s1.events ++ [Note.captureError] }

/-- The shared upload-and-persist-outcome block (main.js 413-431 and
644-665): invoke `uploadFile`, then persist `uploadedToRemote` or the
upload error and emit `uploadComplete`/`uploadError`. -/
def finalizeUpload (sid : Nat) (upOk : Bool) (s : St) : St :=
  let s1 := { s with uploads := s.uploads ++ [sid] }
  if upOk then
    { s1 with sessions := updateFirst (bySid sid) markUploaded s1.sessions,
              events := s1.events ++ [Note.uploadComplete sid] }
  else
    { s1 with sessions := updateFirst (bySid sid) markUploadFailed s1.sessions,
              events := s1.events ++ [Note.uploadError] }

/-- The recording subprocess `end` handler (main.js 386-435): if
`stopRequested` is (still) set the handler defers to the stop endpoint;
otherwise it finalizes its session — `completed` with end time and
duration, upload, outcome, `captureEnded` — and clears
`currentRecording`. -/
def captureEndEv (pid : Nat) (upOk : Bool) (s : St) : St :=
  match s.recProcs.find? (fun p => p.pid == pid) with
  | none => s
  | some p =>
    let s1 := { s with recProcs := s.recProcs.filter (fun q => q.pid != pid) }
    if s1.stopRequested then s1
    else
      let s2 := { s1 with isCapturing := false,
                          sessions := updateFirst (bySid p.sid) markCompleted s1.sessions }
      let s3 := finalizeUpload p.sid upOk s2
      { s3 with events := s3.events ++ [Note.captureEnded p.sid],
                currentRecording := none }

/-- Which resolution path of `stopCapture`'s promise fires first: the
subprocess `end` handler, the `error` handler with a signal-15 message,
the `error` handler with any other message (which rejects), or the
2000 ms timeout. -/
inductive CTrig
  | ended
  | erroredSig15
  | erroredOther
  | timeout
deriving DecidableEq

/-- Whether a recording subprocess with this pid is still alive. -/
def recAlive (s : St) (pid : Nat) : Bool :=
  s.recProcs.any (fun p => p.pid == pid)

/-- The caller-side finalization of the stop endpoint (main.js 625-672),
run when `stopCapture` resolved successfully: skipped entirely when no
`currentRecording` id was read, otherwise mark `completed`, upload,
persist the outcome, emit `captureEnded`, and reset the capture flags. -/
def stopCaptureFinalize (recId : Option Nat) (upOk : Bool) (s2 : St) : St × Bool :=
  match recId with
  | none => (s2, true)
  | some rid =>
      let s3 := { s2 with sessions := updateFirst (bySid rid) markCompleted s2.sessions }
      let s4 := finalizeUpload rid upOk s3
      ({ s4 with events := s4.events ++ [Note.captureEnded rid],
                 isCapturing := false,
                 currentRecording := none,
                 stopRequested := false }, true)

/-- `POST /api/capture/stop` (main.js 619-678) together with
`stopCapture` (main.js 442-488): reject unless capturing with a process
handle; set `stopRequested` and SIGTERM the subprocess; resolve by the
first of {`end`, signal-15 `error`, other `error`, 2 s timeout}.  A
non-signal-15 error fires the recording `error` handler (marking the
session `error` and emitting `captureError`) and rejects the promise, so
the endpoint performs no finalization.  The other three triggers resolve
successfully and the endpoint finalizes; the timeout trigger leaves the
subprocess alive.  A dead subprocess can only resolve by timeout. -/
def stopCaptureEndpoint (trig : CTrig) (upOk : Bool) (s : St) : St × Bool :=
  let recId := s.currentRecording
  match s.ffmpegHandle with
  | none => (s, false)
  | some pid =>
    if !s.isCapturing then (s, false)
    else
      let s1 := { s with stopRequested := true }
      let eff := if recAlive s1 pid then trig else CTrig.timeout
      match eff with
      | CTrig.erroredOther =>
          match s1.recProcs.find? (fun p => p.pid == pid) with
          | none => (s1, false)
          | some p =>
            ({ s1 with recProcs := s1.recProcs.filter (fun q => q.pid != pid),
                       isCapturing := false,
                       sessions := updateFirst (bySid p.sid) markError s1.sessions,
                       events := s1.events ++ [Note.captureError] }, false)
      | CTrig.timeout => stopCaptureFinalize recId upOk s1
      | _ =>
          stopCaptureFinalize recId upOk
            { s1 with recProcs := s1.recProcs.filter (fun q => q.pid != pid) }

/-- `updateNotes` (main.js 581-590): `updateOne({recordingId}, {$set:
{notes, updatedAt}})`, reporting `modifiedCount > 0`.  Since `updatedAt`
is refreshed on every call, the count is positive exactly when a document
matched. -/
def updateNotes (sid : Nat) (text : String) (s : St) : St × Bool :=
  if s.sessions.any (bySid sid) then
    ({ s with sessions := updateFirst (bySid sid)
                (fun x => { x with notes := text }) s.sessions }, true)
  else (s, false)

/-- One atomic step of the event loop. -/
inductive Ev
  | startPreviewCmd
  | previewStart (pid : Nat)
  | previewEnd (pid : Nat)
  | previewErr (pid : Nat)
  | stopPreviewCmd (trig : PTrig)
  | startCaptureCmd (notes : String) (prevTrig : PTrig) (devOk : Bool)
  | captureStart (pid : Nat)
  | captureEnd (pid : Nat) (upOk : Bool)
  | captureErr (pid : Nat) (sig15 : Bool)
  | stopCaptureCmd (trig : CTrig) (upOk : Bool)
  | updateNotesCmd (sid : Nat) (text : String)
deriving DecidableEq

/-- Step interpretation. -/
def step (e : Ev) (s : St) : St :=
  match e with
  | .startPreviewCmd => (startPreview s).1
  | .previewStart pid => previewStartEv pid s
  | .previewEnd pid => previewEndEv pid s
  | .previewErr pid => previewErrEv pid s
  | .stopPreviewCmd trig => (stopPreview trig s).1
  | .startCaptureCmd n t d => (startCapture n t d s).1
  | .captureStart pid => captureStartEv pid s
  | .captureEnd pid up => captureEndEv pid up s
  | .captureErr pid sig => captureErrEv pid sig s
  | .stopCaptureCmd trig up => (stopCaptureEndpoint trig up s).1
  | .updateNotesCmd sid t => (updateNotes sid t s).1

/-- Run a sequence of steps. -/
def run (s : St) (evs : List Ev) : St := evs.foldl (fun t e => step e t) s

/-- Number of sessions currently in status `recording`. -/
def countRec (l : List Session) : Nat :=
  (l.filter (fun x => x.status == Status.recording)).length

/-- Traces in which no capture stop resolves by its 2-second timeout
(equivalently: no recording subprocess outlives its stop). -/
def noCapTimeout : Ev → Bool
  | .stopCaptureCmd CTrig.timeout _ => false
  | _ => true

/-- A `videos` document as seen by the upload backends. -/
structure VideoDoc where
  recordingId : Nat
  status : Status
  notes : String
  uploadedToRemote : Bool
  sftpLocationSet : Bool
  s3LocationSet : Bool
deriving DecidableEq

/-- `uploadToSFTP` (main.js 504-550): connect, mkdir, put, disconnect,
then itself persist `sftpLocation` and `uploadedToRemote` on the session
document before returning the locator; any transfer failure throws before
that write. -/
def uploadToSFTP (recordingId : Nat) (transferOk : Bool) (docs : List VideoDoc) :
    List VideoDoc × Bool :=
  if transferOk then
    (updateFirst (fun d => d.recordingId == recordingId)
       (fun d => { d with sftpLocationSet := true, uploadedToRemote := true }) docs,
     true)
  else (docs, false)

/-- `uploadToS3` (main.js 553-578): `s3.upload`, then itself persist
`s3Location` and `uploadedToRemote` on the session document; a failed
upload throws before the write. -/
def uploadToS3 (recordingId : Nat) (transferOk : Bool) (docs : List VideoDoc) :
    List VideoDoc × Bool :=
  if transferOk then
    (updateFirst (fun d => d.recordingId == recordingId)
       (fun d => { d with s3LocationSet := true, uploadedToRemote := true }) docs,
     true)
  else (docs, false)

/-- The configured `UPLOAD_METHOD`. -/
inductive UploadMethod
  | sftp
  | s3
  | localOnly
deriving DecidableEq

/-- `uploadFile` (main.js 491-501): dispatch on the configured backend;
the local-only configuration returns the local path as locator and writes
nothing. -/
def uploadFileDispatch (m : UploadMethod) (recordingId : Nat) (transferOk : Bool)
    (docs : List VideoDoc) : List VideoDoc × Bool :=
  match m with
  | .sftp => uploadToSFTP recordingId transferOk docs
  | .s3 => uploadToS3 recordingId transferOk docs
  | .localOnly => (docs, true)

/-- Inductive invariant tying the session store to the capture flags.
It holds on every state reachable without a capture stop resolving by
timeout (no recording subprocess outliving its stop). -/
structure Inv (s : St) : Prop where
  nodupSids : (s.sessions.map Session.sid).Nodup
  sidLt : ∀ x ∈ s.sessions, x.sid < s.nextSid
  recCur : ∀ x ∈ s.sessions, x.status = Status.recording →
    s.currentRecording = some x.sid
  idleNoRec : s.isCapturing = false → ∀ x ∈ s.sessions, x.status ≠ Status.recording
  idleNoProc : s.isCapturing = false → s.recProcs = []
  procHandle : ∀ p ∈ s.recProcs, s.ffmpegHandle = some p.pid
  procRec : ∀ p ∈ s.recProcs, ∀ x ∈ s.sessions, x.status = Status.recording →
    x.sid = p.sid

/-- For a fixed session id: no live recording subprocess belongs to it,
and it is not the current recording while capturing.  Preserved by every
step, and no step uploads the id while it holds. -/
structure SafeSid (sid : Nat) (s : St) : Prop where
  noProc : ∀ p ∈ s.recProcs, p.sid ≠ sid
  notCur : s.isCapturing = true → s.currentRecording ≠ some sid
  sidLt : sid < s.nextSid

/-! ### Helper lemmas about `updateFirst` and counting -/

theorem updateFirst_map_eq {α β : Type} (p : α → Bool) (f : α → α) (g : α → β)
    (h : ∀ x, g (f x) = g x) : ∀ l : List α, (updateFirst p f l).map g = l.map g := by
  intro l
  induction l with
  | nil => rfl
  | cons a rest ih =>
    cases hpa : p a with
    | true => simp [updateFirst, hpa, h]
    | false => simp [updateFirst, hpa, ih]

theorem mem_updateFirst {α : Type} (p : α → Bool) (f : α → α) :
    ∀ {l : List α} {x : α}, x ∈ updateFirst p f l → x ∈ l ∨ ∃ y ∈ l, x = f y := by
  intro l
  induction l with
  | nil => intro x hx; simp [updateFirst] at hx
  | cons a rest ih =>
    intro x hx
    cases hpa : p a with
    | true =>
      simp only [updateFirst, hpa, if_true] at hx
      rcases List.mem_cons.1 hx with h | h
      · exact Or.inr ⟨a, List.mem_cons_self a rest, h⟩
      · exact Or.inl (List.mem_cons_of_mem a h)
    | false =>
      simp only [updateFirst, hpa, if_false] at hx
      rcases List.mem_cons.1 hx with h | h
      · exact Or.inl (h ▸ List.mem_cons_self a rest)
      · rcases ih h with h2 | ⟨y, hy, hxy⟩
        · exact Or.inl (List.mem_cons_of_mem a h2)
        · exact Or.inr ⟨y, List.mem_cons_of_mem a hy, hxy⟩

theorem find?_updateFirst {α : Type} (p : α → Bool) (f : α → α)
    (hpf : ∀ y, p (f y) = p y) :
    ∀ l : List α, (updateFirst p f l).find? p = (l.find? p).map f := by
  intro l
  induction l with
  | nil => rfl
  | cons a rest ih =>
    cases hpa : p a with
    | true => simp [updateFirst, hpa, List.find?, hpf a]
    | false => simp [updateFirst, hpa, List.find?, ih]

theorem updateFirst_idem {α : Type} (p : α → Bool) (f : α → α)
    (hpf : ∀ x, p x = true → p (f x) = true)
    (hff : ∀ x, p x = true → f (f x) = f x) :
    ∀ l : List α, updateFirst p f (updateFirst p f l) = updateFirst p f l := by
  intro l
  induction l with
  | nil => rfl
  | cons a rest ih =>
    cases hpa : p a with
    | true => simp [updateFirst, hpa, hpf a hpa, hff a hpa]
    | false => simp [updateFirst, hpa, ih]

theorem filter_nil_of {α : Type} (p : α → Bool) :
    ∀ l : List α, (∀ a ∈ l, p a = false) → l.filter p = [] := by
  intro l
  induction l with
  | nil => intro _; rfl
  | cons a rest ih =>
    intro h
    simp [List.filter_cons, h a (List.mem_cons_self a rest),
          ih (fun b hb => h b (List.mem_cons_of_mem a hb))]

theorem countRec_nil_of (l : List Session)
    (h : ∀ x ∈ l, x.status ≠ Status.recording) : countRec l = 0 := by
  have : l.filter (fun x => x.status == Status.recording) = [] := by
    apply filter_nil_of
    intro a ha
    simpa using h a ha
  simp [countRec, this]

theorem countRec_le_one :
    ∀ l : List Session, (l.map Session.sid).Nodup →
      (∀ x ∈ l, ∀ y ∈ l, x.status = Status.recording → y.status = Status.recording →
        x.sid = y.sid) →
      countRec l ≤ 1 := by
  intro l
  induction l with
  | nil => intro _ _; simp [countRec]
  | cons a rest ih =>
    intro hnd hpair
    have hndr : (rest.map Session.sid).Nodup := (List.nodup_cons.1 hnd).2
    by_cases ha : a.status = Status.recording
    · have hrest : ∀ y ∈ rest, y.status ≠ Status.recording := by
        intro y hy hyrec
        have heq : a.sid = y.sid :=
          hpair a (List.mem_cons_self a rest) y (List.mem_cons_of_mem a hy) ha hyrec
        have : a.sid ∈ rest.map Session.sid := heq ▸ List.mem_map_of_mem Session.sid hy
        exact (List.nodup_cons.1 hnd).1 this
      have h0 : countRec rest = 0 := countRec_nil_of rest hrest
      have h1 : countRec (a :: rest) = countRec rest + 1 := by
        simp [countRec, List.filter_cons, ha]
      omega
    · have : countRec (a :: rest) = countRec rest := by
        simp [countRec, List.filter_cons, ha]
      rw [this]
      exact ih hndr (fun x hx y hy hxr hyr =>
        hpair x (List.mem_cons_of_mem a hx) y (List.mem_cons_of_mem a hy) hxr hyr)

theorem updateFirst_no_rec {rid : Nat} {f : Session → Session}
    (hf : ∀ x, (f x).status ≠ Status.recording) :
    ∀ l : List Session, (l.map Session.sid).Nodup →
      (∀ x ∈ l, x.status = Status.recording → x.sid = rid) →
      ∀ x ∈ updateFirst (bySid rid) f l, x.status ≠ Status.recording := by
  intro l
  induction l with
  | nil => intro _ _ x hx; simp [updateFirst] at hx
  | cons a rest ih =>
    intro hnd hall x hx
    cases hpa : bySid rid a with
    | true =>
      simp only [updateFirst, hpa, if_true] at hx
      rcases List.mem_cons.1 hx with h | h
      · exact h ▸ hf a
      · intro hrec
        have hxs : x.sid = rid := hall x (List.mem_cons_of_mem a h) hrec
        have has : a.sid = rid := by simpa [bySid] using hpa
        have : a.sid ∈ rest.map Session.sid := by
          rw [has, ← hxs]; exact List.mem_map_of_mem Session.sid h
        exact (List.nodup_cons.1 hnd).1 this
    | false =>
      simp only [updateFirst, hpa, if_false] at hx
      rcases List.mem_cons.1 hx with h | h
      · intro hrec
        have : a.sid = rid := hall a (List.mem_cons_self a rest) (h ▸ hrec)
        simp [bySid, this] at hpa
      · exact ih (List.nodup_cons.1 hnd).2
          (fun y hy hyr => hall y (List.mem_cons_of_mem a hy) hyr) x h

theorem updateFirst_sid_status (f : Session → Session)
    (hsid : ∀ x, (f x).sid = x.sid) (hst : ∀ x, (f x).status = x.status)
    (p : Session → Bool) (l : List Session) :
    ∀ x ∈ updateFirst p f l, ∃ y ∈ l, x.sid = y.sid ∧ x.status = y.status := by
  intro x hx
  rcases mem_updateFirst p f hx with h | ⟨y, hy, rfl⟩
  · exact ⟨x, h, rfl, rfl⟩
  · exact ⟨y, hy, hsid y, hst y⟩

theorem stopPreview_frame (trig : PTrig) (s : St) :
    (stopPreview trig s).1.sessions = s.sessions ∧
    (stopPreview trig s).1.isCapturing = s.isCapturing ∧
    (stopPreview trig s).1.currentRecording = s.currentRecording ∧
    (stopPreview trig s).1.recProcs = s.recProcs ∧
    (stopPreview trig s).1.ffmpegHandle = s.ffmpegHandle ∧
    (stopPreview trig s).1.uploads = s.uploads ∧
    (stopPreview trig s).1.nextSid = s.nextSid ∧
    (stopPreview trig s).1.nextPid = s.nextPid ∧
    (stopPreview trig s).1.stopRequested = s.stopRequested := by
  cases hh : s.previewHandle with
  | none => simp [stopPreview, hh]
  | some pid =>
    cases hp : s.isPreviewing with
    | false => simp [stopPreview, hh, hp]
    | true =>
      cases trig <;>
        cases ha : s.prevProcs.any (fun p => p.pid == pid) <;>
          simp [stopPreview, previewAlive, hh, hp, ha]

/-! ### The single-recording invariant (used for C1) -/

theorem inv_transport (s s' : St)
    (h1 : s'.sessions = s.sessions) (h2 : s'.isCapturing = s.isCapturing)
    (h3 : s'.recProcs = s.recProcs) (h4 : s'.currentRecording = s.currentRecording)
    (h5 : s'.ffmpegHandle = s.ffmpegHandle) (h6 : s'.nextSid = s.nextSid)
    (h : Inv s) : Inv s' := by
  refine ⟨?_, ?_, ?_, ?_, ?_, ?_, ?_⟩
  · rw [h1]; exact h.nodupSids
  · rw [h1, h6]; exact h.sidLt
  · rw [h1, h4]; exact h.recCur
  · rw [h1, h2]; exact h.idleNoRec
  · rw [h2, h3]; exact h.idleNoProc
  · rw [h3, h5]; exact h.procHandle
  · rw [h3, h1]; exact h.procRec

theorem inv_sessions_pres (s : St) (l2 : List Session)
    (hmap : l2.map Session.sid = s.sessions.map Session.sid)
    (hmem : ∀ x ∈ l2, ∃ y ∈ s.sessions, x.sid = y.sid ∧ x.status = y.status)
    (h : Inv s) : Inv { s with sessions := l2 } := by
  refine ⟨?_, ?_, ?_, ?_, ?_, ?_, ?_⟩
  · rw [show ({ s with sessions := l2 } : St).sessions = l2 from rfl, hmap]
    exact h.nodupSids
  · intro x hx
    obtain ⟨y, hy, hsid, _⟩ := hmem x hx
    show x.sid < s.nextSid
    rw [hsid]; exact h.sidLt y hy
  · intro x hx hrec
    obtain ⟨y, hy, hsid, hst⟩ := hmem x hx
    show s.currentRecording = some x.sid
    rw [hsid]; exact h.recCur y hy (by rw [← hst]; exact hrec)
  · intro hcap x hx hrec
    obtain ⟨y, hy, _, hst⟩ := hmem x hx
    exact h.idleNoRec hcap y hy (by rw [← hst]; exact hrec)
  · intro hcap; exact h.idleNoProc hcap
  · exact h.procHandle
  · intro p hp x hx hrec
    obtain ⟨y, hy, hsid, hst⟩ := hmem x hx
    rw [hsid]; exact h.procRec p hp y hy (by rw [← hst]; exact hrec)

/-- Rebuild the invariant for any state whose sessions are a
sid-preserving, recording-free rewrite of the old ones and whose
recording-subprocess set is empty; all other fields are unconstrained. -/
theorem inv_rebuild (s s' : St) (h : Inv s)
    (hmap : s'.sessions.map Session.sid = s.sessions.map Session.sid)
    (hmem : ∀ x ∈ s'.sessions, ∃ y ∈ s.sessions, x.sid = y.sid)
    (hnr : ∀ x ∈ s'.sessions, x.status ≠ Status.recording)
    (hprocs : s'.recProcs = [])
    (hns : s'.nextSid = s.nextSid) : Inv s' := by
  refine ⟨?_, ?_, ?_, ?_, ?_, ?_, ?_⟩
  · rw [hmap]; exact h.nodupSids
  · intro x hx
    obtain ⟨y, hy, hsid⟩ := hmem x hx
    rw [hns, hsid]; exact h.sidLt y hy
  · intro x hx hrec; exact absurd hrec (hnr x hx)
  · intro _; exact hnr
  · intro _; exact hprocs
  · intro q hq; rw [hprocs] at hq; exact absurd hq (List.not_mem_nil q)
  · intro q hq; rw [hprocs] at hq; exact absurd hq (List.not_mem_nil q)

/-- Rebuild the invariant when only the recording-subprocess set shrinks
and `isCapturing` stays true. -/
theorem inv_subprocs (s s' : St) (h : Inv s)
    (hsess : s'.sessions = s.sessions)
    (hcap' : s'.isCapturing = true)
    (hcur : s'.currentRecording = s.currentRecording)
    (hfh : s'.ffmpegHandle = s.ffmpegHandle)
    (hns : s'.nextSid = s.nextSid)
    (hsub : ∀ q ∈ s'.recProcs, q ∈ s.recProcs) : Inv s' := by
  refine ⟨?_, ?_, ?_, ?_, ?_, ?_, ?_⟩
  · rw [hsess]; exact h.nodupSids
  · rw [hsess, hns]; exact h.sidLt
  · rw [hsess, hcur]; exact h.recCur
  · intro hco; rw [hcap'] at hco; exact absurd hco (by simp)
  · intro hco; rw [hcap'] at hco; exact absurd hco (by simp)
  · intro q hq; rw [hfh]; exact h.procHandle q (hsub q hq)
  · intro q hq; rw [hsess]; exact h.procRec q (hsub q hq)

theorem updateFirst_sid (f : Session → Session)
    (hsid : ∀ x, (f x).sid = x.sid) (p : Session → Bool) (l : List Session) :
    ∀ x ∈ updateFirst p f l, ∃ y ∈ l, x.sid = y.sid := by
  intro x hx
  rcases mem_updateFirst p f hx with hmem | ⟨y, hy, rfl⟩
  · exact ⟨x, hmem, rfl⟩
  · exact ⟨y, hy, hsid y⟩

theorem inv_startPreview (s : St) (h : Inv s) : Inv (startPreview s).1 := by
  unfold startPreview
  split
  · exact h
  · exact inv_transport s _ rfl rfl rfl rfl rfl rfl h

theorem inv_previewStartEv (pid : Nat) (s : St) (h : Inv s) :
    Inv (previewStartEv pid s) := by
  unfold previewStartEv
  split
  · exact inv_transport s _ rfl rfl rfl rfl rfl rfl h
  · exact h

theorem inv_previewEndEv (pid : Nat) (s : St) (h : Inv s) :
    Inv (previewEndEv pid s) := by
  unfold previewEndEv
  split
  · exact inv_transport s _ rfl rfl rfl rfl rfl rfl h
  · exact h

theorem inv_previewErrEv (pid : Nat) (s : St) (h : Inv s) :
    Inv (previewErrEv pid s) := by
  unfold previewErrEv
  split
  · split
    · exact inv_transport s _ rfl rfl rfl rfl rfl rfl h
    · exact inv_transport s _ rfl rfl rfl rfl rfl rfl h
  · exact h

theorem inv_stopPreview (trig : PTrig) (s : St) (h : Inv s) :
    Inv (stopPreview trig s).1 := by
  obtain ⟨h1, h2, h3, h4, h5, _, h7, _, _⟩ := stopPreview_frame trig s
  exact inv_transport s _ h1 h2 h4 h3 h5 h7 h

theorem inv_updateNotes (sid : Nat) (text : String) (s : St) (h : Inv s) :
    Inv (updateNotes sid text s).1 := by
  unfold updateNotes
  split
  · exact inv_sessions_pres s _
      (updateFirst_map_eq (bySid sid) (fun x => { x with notes := text })
        Session.sid (fun x => rfl) s.sessions)
      (updateFirst_sid_status (fun x => { x with notes := text })
        (fun x => rfl) (fun x => rfl) (bySid sid) s.sessions) h
  · exact h

theorem inv_startCapture_core (n : String) (s1 : St) (h1 : Inv s1)
    (hcap : s1.isCapturing = false) :
    Inv { s1 with
      sessions := s1.sessions ++
        [⟨s1.nextSid, Status.recording, n, false, false, false, false, false⟩],
      isCapturing := true,
      currentRecording := some s1.nextSid,
      stopRequested := false,
      previewHandle := none,
      ffmpegHandle := some s1.nextPid,
      recProcs := s1.recProcs ++ [⟨s1.nextPid, s1.nextSid, false⟩],
      nextPid := s1.nextPid + 1,
      nextSid := s1.nextSid + 1 } := by
  have hnorec : ∀ x ∈ s1.sessions, x.status ≠ Status.recording := h1.idleNoRec hcap
  have hnop : s1.recProcs = [] := h1.idleNoProc hcap
  refine ⟨?_, ?_, ?_, ?_, ?_, ?_, ?_⟩
  · show ((s1.sessions ++ [(⟨s1.nextSid, Status.recording, n, false, false, false,
      false, false⟩ : Session)]).map Session.sid).Nodup
    rw [List.map_append]
    rw [List.nodup_append]
    refine ⟨h1.nodupSids, by simp, ?_⟩
    intro a ha hb
    simp only [List.map_cons, List.map_nil, List.mem_singleton] at hb
    rcases List.mem_map.1 ha with ⟨x, hx, rfl⟩
    have := h1.sidLt x hx
    rw [hb] at this
    exact absurd this (Nat.lt_irrefl _)
  · intro x hx
    rcases List.mem_append.1 hx with hx1 | hx1
    · exact Nat.lt_succ_of_lt (h1.sidLt x hx1)
    · rw [List.mem_singleton] at hx1
      rw [hx1]
      exact Nat.lt_succ_self _
  · intro x hx hrec
    rcases List.mem_append.1 hx with hx1 | hx1
    · exact absurd hrec (hnorec x hx1)
    · rw [List.mem_singleton] at hx1
      rw [hx1]
  · intro hco; exact absurd hco (by simp)
  · intro hco; exact absurd hco (by simp)
  · intro p hp
    rcases List.mem_append.1 hp with hp1 | hp1
    · rw [hnop] at hp1; exact absurd hp1 (List.not_mem_nil p)
    · rw [List.mem_singleton] at hp1
      rw [hp1]
  · intro p hp x hx hrec
    rcases List.mem_append.1 hp with hp1 | hp1
    · rw [hnop] at hp1; exact absurd hp1 (List.not_mem_nil p)
    · rcases List.mem_append.1 hx with hx1 | hx1
      · exact absurd hrec (hnorec x hx1)
      · rw [List.mem_singleton] at hx1
        rw [List.mem_singleton] at hp1
        rw [hx1, hp1]

theorem inv_startCapture (n : String) (t : PTrig) (d : Bool) (s : St) (h : Inv s) :
    Inv (startCapture n t d s).1 := by
  cases hc : s.isCapturing with
  | true => simpa [startCapture, hc] using h
  | false =>
    have hfrp : Inv (if s.isPreviewing = true then (stopPreview t s).1 else s) ∧
        (if s.isPreviewing = true then (stopPreview t s).1 else s).isCapturing
          = false := by
      cases hp : s.isPreviewing with
      | true =>
        obtain ⟨a, b, c2, d2, e, _, f, _, _⟩ := stopPreview_frame t s
        rw [if_pos rfl]
        exact ⟨inv_transport s _ a b d2 c2 e f h, by rw [b, hc]⟩
      | false =>
        rw [if_neg (by simp)]
        exact ⟨h, hc⟩
    cases d with
    | false =>
      have heq : (startCapture n t false s).1
          = (if s.isPreviewing = true then (stopPreview t s).1 else s) := by
        simp [startCapture, hc]
      rw [heq]; exact hfrp.1
    | true =>
      have heq : (startCapture n t true s).1
          = { (if s.isPreviewing = true then (stopPreview t s).1 else s) with
              sessions := (if s.isPreviewing = true then (stopPreview t s).1
                else s).sessions ++
                [⟨(if s.isPreviewing = true then (stopPreview t s).1 else s).nextSid,
                  Status.recording, n, false, false, false, false, false⟩],
              isCapturing := true,
              currentRecording := some (if s.isPreviewing = true
                then (stopPreview t s).1 else s).nextSid,
              stopRequested := false,
              previewHandle := none,
              ffmpegHandle := some (if s.isPreviewing = true
                then (stopPreview t s).1 else s).nextPid,
              recProcs := (if s.isPreviewing = true then (stopPreview t s).1
                else s).recProcs ++
                [⟨(if s.isPreviewing = true then (stopPreview t s).1 else s).nextPid,
                  (if s.isPreviewing = true then (stopPreview t s).1 else s).nextSid,
                  false⟩],
              nextPid := (if s.isPreviewing = true then (stopPreview t s).1
                else s).nextPid + 1,
              nextSid := (if s.isPreviewing = true then (stopPreview t s).1
                else s).nextSid + 1 } := by
        simp [startCapture, hc]
      rw [heq]
      exact inv_startCapture_core n _ hfrp.1 hfrp.2

theorem inv_captureStartEv (pid : Nat) (s : St) (h : Inv s) :
    Inv (captureStartEv pid s) := by
  unfold captureStartEv
  split
  · exact h
  next p hf =>
    split
    next hfired => exact h
    next hfired =>
      refine ⟨h.nodupSids, h.sidLt, h.recCur, h.idleNoRec, ?_, ?_, ?_⟩
      · intro hcap
        show s.recProcs.map _ = []
        rw [h.idleNoProc hcap]
        rfl
      · intro q hq
        rcases List.mem_map.1 hq with ⟨p0, hp0, rfl⟩
        have hpd : (if (p0.pid == pid) = true
            then { p0 with startFired := true } else p0).pid = p0.pid := by
          split <;> rfl
        show s.ffmpegHandle = some _
        rw [hpd]
        exact h.procHandle p0 hp0
      · intro q hq x hx hrec
        rcases List.mem_map.1 hq with ⟨p0, hp0, rfl⟩
        have hpd : (if (p0.pid == pid) = true
            then { p0 with startFired := true } else p0).sid = p0.sid := by
          split <;> rfl
        rw [hpd]
        exact h.procRec p0 hp0 x hx hrec

theorem handle_rem_nil {s : St} (h : Inv s) {pid : Nat} {p : RecProc}
    (hpmem : p ∈ s.recProcs) (hpid : p.pid = pid) :
    s.recProcs.filter (fun q => q.pid != pid) = [] := by
  apply filter_nil_of
  intro q hq
  have h1 := h.procHandle q hq
  have h2 := h.procHandle p hpmem
  rw [h1] at h2
  have : q.pid = p.pid := Option.some.inj h2
  rw [this, hpid]
  simp

theorem inv_cap_of_mem {s : St} (h : Inv s) {p : RecProc} (hp : p ∈ s.recProcs) :
    s.isCapturing = true := by
  cases hcx : s.isCapturing with
  | true => rfl
  | false =>
    have := h.idleNoProc hcx
    rw [this] at hp
    exact absurd hp (List.not_mem_nil p)

theorem inv_captureErrEv (pid : Nat) (sig : Bool) (s : St) (h : Inv s) :
    Inv (captureErrEv pid sig s) := by
  cases hf : s.recProcs.find? (fun q => q.pid == pid) with
  | none => simpa [captureErrEv, hf] using h
  | some p =>
    have hpmem : p ∈ s.recProcs := List.mem_of_find?_eq_some hf
    have hpid : p.pid = pid := by
      have := List.find?_some hf
      simpa using this
    have hcap : s.isCapturing = true := inv_cap_of_mem h hpmem
    have hrem : s.recProcs.filter (fun q => q.pid != pid) = [] :=
      handle_rem_nil h hpmem hpid
    cases sig with
    | true =>
      have heq : captureErrEv pid true s
          = { s with recProcs := s.recProcs.filter (fun q => q.pid != pid) } := by
        simp [captureErrEv, hf]
      rw [heq]
      refine inv_subprocs s _ h ?_ ?_ ?_ ?_ ?_ ?_
      · rfl
      · exact hcap
      · rfl
      · rfl
      · rfl
      · exact fun q hq => List.mem_of_mem_filter hq
    | false =>
      have heq : captureErrEv pid false s
          = { s with recProcs := s.recProcs.filter (fun q => q.pid != pid),
                     isCapturing := false,
                     sessions := updateFirst (bySid p.sid) markError s.sessions,
                     events := s.events ++ [Note.captureError] } := by
        simp [captureErrEv, hf]
      rw [heq]
      refine inv_rebuild s _ h ?_ ?_ ?_ ?_ ?_
      · exact updateFirst_map_eq (bySid p.sid) markError Session.sid
          (fun x => rfl) s.sessions
      · exact updateFirst_sid markError (fun x => rfl) (bySid p.sid) s.sessions
      · exact updateFirst_no_rec (fun x => by simp [markError]) s.sessions
          h.nodupSids (fun x hx hrec => h.procRec p hpmem x hx hrec)
      · exact hrem
      · rfl

theorem inv_captureEndEv (pid : Nat) (upOk : Bool) (s : St) (h : Inv s) :
    Inv (captureEndEv pid upOk s) := by
  cases hf : s.recProcs.find? (fun q => q.pid == pid) with
  | none => simpa [captureEndEv, hf] using h
  | some p =>
    have hpmem : p ∈ s.recProcs := List.mem_of_find?_eq_some hf
    have hpid : p.pid = pid := by
      have := List.find?_some hf
      simpa using this
    have hcap : s.isCapturing = true := inv_cap_of_mem h hpmem
    have hrem : s.recProcs.filter (fun q => q.pid != pid) = [] :=
      handle_rem_nil h hpmem hpid
    have hnorec1 : ∀ x ∈ updateFirst (bySid p.sid) markCompleted s.sessions,
        x.status ≠ Status.recording :=
      updateFirst_no_rec (fun x => by simp [markCompleted]) s.sessions
        h.nodupSids (fun x hx hrec => h.procRec p hpmem x hx hrec)
    have hmap1 : (updateFirst (bySid p.sid) markCompleted s.sessions).map Session.sid
        = s.sessions.map Session.sid :=
      updateFirst_map_eq (bySid p.sid) markCompleted Session.sid
        (fun x => rfl) s.sessions
    have hmem1 : ∀ x ∈ updateFirst (bySid p.sid) markCompleted s.sessions,
        ∃ y ∈ s.sessions, x.sid = y.sid :=
      updateFirst_sid markCompleted (fun x => rfl) (bySid p.sid) s.sessions
    cases hsr : s.stopRequested with
    | true =>
      have heq : captureEndEv pid upOk s
          = { s with recProcs := s.recProcs.filter (fun q => q.pid != pid) } := by
        simp [captureEndEv, hf, hsr]
      rw [heq]
      refine inv_subprocs s _ h ?_ ?_ ?_ ?_ ?_ ?_
      · rfl
      · exact hcap
      · rfl
      · rfl
      · rfl
      · exact fun q hq => List.mem_of_mem_filter hq
    | false =>
      cases upOk with
      | true =>
        have heq : captureEndEv pid true s
            = { s with recProcs := s.recProcs.filter (fun q => q.pid != pid),
                       isCapturing := false,
                       sessions := updateFirst (bySid p.sid) markUploaded
                         (updateFirst (bySid p.sid) markCompleted s.sessions),
                       uploads := s.uploads ++ [p.sid],
                       events := s.events ++ [Note.uploadComplete p.sid,
                         Note.captureEnded p.sid],
                       currentRecording := none } := by
          simp [captureEndEv, finalizeUpload, hf, hsr]
        rw [heq]
        refine inv_rebuild s _ h ?_ ?_ ?_ ?_ ?_
        · exact (updateFirst_map_eq (bySid p.sid) markUploaded Session.sid
            (fun x => rfl) _).trans hmap1
        · intro x hx
          obtain ⟨y, hy, hsid⟩ :=
            updateFirst_sid markUploaded (fun x => rfl) (bySid p.sid) _ x hx
          obtain ⟨z, hz, hsid2⟩ := hmem1 y hy
          exact ⟨z, hz, by rw [hsid, hsid2]⟩
        · intro x hx
          obtain ⟨y, hy, _, hst⟩ :=
            updateFirst_sid_status markUploaded (fun x => rfl) (fun x => rfl)
              (bySid p.sid) _ x hx
          intro hrec
          exact hnorec1 y hy (by rw [← hst]; exact hrec)
        · exact hrem
        · rfl
      | false =>
        have heq : captureEndEv pid false s
            = { s with recProcs := s.recProcs.filter (fun q => q.pid != pid),
                       isCapturing := false,
                       sessions := updateFirst (bySid p.sid) markUploadFailed
                         (updateFirst (bySid p.sid) markCompleted s.sessions),
                       uploads := s.uploads ++ [p.sid],
                       events := s.events ++ [Note.uploadError,
                         Note.captureEnded p.sid],
                       currentRecording := none } := by
          simp [captureEndEv, finalizeUpload, hf, hsr]
        rw [heq]
        refine inv_rebuild s _ h ?_ ?_ ?_ ?_ ?_
        · exact (updateFirst_map_eq (bySid p.sid) markUploadFailed Session.sid
            (fun x => rfl) _).trans hmap1
        · intro x hx
          obtain ⟨y, hy, hsid⟩ :=
            updateFirst_sid markUploadFailed (fun x => rfl) (bySid p.sid) _ x hx
          obtain ⟨z, hz, hsid2⟩ := hmem1 y hy
          exact ⟨z, hz, by rw [hsid, hsid2]⟩
        · intro x hx
          obtain ⟨y, hy, _, hst⟩ :=
            updateFirst_sid_status markUploadFailed (fun x => rfl) (fun x => rfl)
              (bySid p.sid) _ x hx
          intro hrec
          exact hnorec1 y hy (by rw [← hst]; exact hrec)
        · exact hrem
        · rfl

theorem inv_stopCaptureFinalize (recId : Option Nat) (upOk : Bool) (s2 : St)
    (h : Inv s2) (hrecs : s2.recProcs = [])
    (hrid : recId = s2.currentRecording) :
    Inv (stopCaptureFinalize recId upOk s2).1 := by
  cases recId with
  | none => simpa [stopCaptureFinalize] using h
  | some rid =>
    have hall : ∀ x ∈ s2.sessions, x.status = Status.recording → x.sid = rid := by
      intro x hx hrec
      have h2 := h.recCur x hx hrec
      rw [← hrid] at h2
      exact (Option.some.inj h2).symm
    have hnorec1 : ∀ x ∈ updateFirst (bySid rid) markCompleted s2.sessions,
        x.status ≠ Status.recording :=
      updateFirst_no_rec (fun x => by simp [markCompleted]) s2.sessions
        h.nodupSids hall
    have hmap1 : (updateFirst (bySid rid) markCompleted s2.sessions).map Session.sid
        = s2.sessions.map Session.sid :=
      updateFirst_map_eq (bySid rid) markCompleted Session.sid
        (fun x => rfl) s2.sessions
    have hmem1 : ∀ x ∈ updateFirst (bySid rid) markCompleted s2.sessions,
        ∃ y ∈ s2.sessions, x.sid = y.sid :=
      updateFirst_sid markCompleted (fun x => rfl) (bySid rid) s2.sessions
    cases upOk with
    | true =>
      have heq : (stopCaptureFinalize (some rid) true s2).1
          = { s2 with
                sessions := updateFirst (bySid rid) markUploaded
                  (updateFirst (bySid rid) markCompleted s2.sessions),
                uploads := s2.uploads ++ [rid],
                events := s2.events ++ [Note.uploadComplete rid,
                  Note.captureEnded rid],
                isCapturing := false,
                currentRecording := none,
                stopRequested := false } := by
        simp [stopCaptureFinalize, finalizeUpload]
      rw [heq]
      refine inv_rebuild s2 _ h ?_ ?_ ?_ ?_ ?_
      · exact (updateFirst_map_eq (bySid rid) markUploaded Session.sid
          (fun x => rfl) _).trans hmap1
      · intro x hx
        obtain ⟨y, hy, hsid⟩ :=
          updateFirst_sid markUploaded (fun x => rfl) (bySid rid) _ x hx
        obtain ⟨z, hz, hsid2⟩ := hmem1 y hy
        exact ⟨z, hz, by rw [hsid, hsid2]⟩
      · intro x hx
        obtain ⟨y, hy, _, hst⟩ :=
          updateFirst_sid_status markUploaded (fun x => rfl) (fun x => rfl)
            (bySid rid) _ x hx
        intro hrec
        exact hnorec1 y hy (by rw [← hst]; exact hrec)
      · exact hrecs
      · rfl
    | false =>
      have heq : (stopCaptureFinalize (some rid) false s2).1
          = { s2 with
                sessions := updateFirst (bySid rid) markUploadFailed
                  (updateFirst (bySid rid) markCompleted s2.sessions),
                uploads := s2.uploads ++ [rid],
                events := s2.events ++ [Note.uploadError, Note.captureEnded rid],
                isCapturing := false,
                currentRecording := none,
                stopRequested := false } := by
        simp [stopCaptureFinalize, finalizeUpload]
      rw [heq]
      refine inv_rebuild s2 _ h ?_ ?_ ?_ ?_ ?_
      · exact (updateFirst_map_eq (bySid rid) markUploadFailed Session.sid
          (fun x => rfl) _).trans hmap1
      · intro x hx
        obtain ⟨y, hy, hsid⟩ :=
          updateFirst_sid markUploadFailed (fun x => rfl) (bySid rid) _ x hx
        obtain ⟨z, hz, hsid2⟩ := hmem1 y hy
        exact ⟨z, hz, by rw [hsid, hsid2]⟩
      · intro x hx
        obtain ⟨y, hy, _, hst⟩ :=
          updateFirst_sid_status markUploadFailed (fun x => rfl) (fun x => rfl)
            (bySid rid) _ x hx
        intro hrec
        exact hnorec1 y hy (by rw [← hst]; exact hrec)
      · exact hrecs
      · rfl

theorem inv_stopCaptureEndpoint (trig : CTrig) (upOk : Bool) (s : St) (h : Inv s)
    (ht : trig ≠ CTrig.timeout) : Inv (stopCaptureEndpoint trig upOk s).1 := by
  cases hh : s.ffmpegHandle with
  | none => simpa [stopCaptureEndpoint, hh] using h
  | some pid =>
    cases hcx : s.isCapturing with
    | false => simpa [stopCaptureEndpoint, hh, hcx] using h
    | true =>
      have h1 : Inv { s with stopRequested := true } :=
        inv_transport s _ rfl rfl rfl rfl rfl rfl h
      cases halive : s.recProcs.any (fun q => q.pid == pid) with
      | false =>
        have hnil : s.recProcs = [] := by
          cases hrp : s.recProcs with
          | nil => rfl
          | cons q rest =>
            exfalso
            have hq : q ∈ s.recProcs := by
              rw [hrp]; exact List.mem_cons_self q rest
            have h2 := h.procHandle q hq
            rw [hh] at h2
            have hqp : q.pid = pid := (Option.some.inj h2).symm
            have hany : s.recProcs.any (fun p => p.pid == pid) = true :=
              List.any_eq_true.2 ⟨q, hq, by simp [hqp]⟩
            rw [halive] at hany
            simp at hany
        have heq : (stopCaptureEndpoint trig upOk s).1
            = (stopCaptureFinalize s.currentRecording upOk
                { s with stopRequested := true }).1 := by
          simp [stopCaptureEndpoint, recAlive, hh, hcx, halive]
        rw [heq]
        exact inv_stopCaptureFinalize s.currentRecording upOk
          { s with stopRequested := true } h1 hnil rfl
      | true =>
        cases trig with
        | timeout => exact absurd rfl ht
        | ended =>
          rcases List.any_eq_true.1 halive with ⟨q, hq, hqb⟩
          have hqpid : q.pid = pid := by simpa using hqb
          have hrem : s.recProcs.filter (fun q2 => q2.pid != pid) = [] :=
            handle_rem_nil h hq hqpid
          have heq : (stopCaptureEndpoint CTrig.ended upOk s).1
              = (stopCaptureFinalize s.currentRecording upOk
                  { s with
                    stopRequested := true,
                    recProcs := s.recProcs.filter
                      (fun q2 => q2.pid != pid) }).1 := by
            simp [stopCaptureEndpoint, recAlive, hh, hcx, halive]
          rw [heq]
          have h2 : Inv { s with
              stopRequested := true,
              recProcs := s.recProcs.filter (fun q2 => q2.pid != pid) } := by
            refine inv_subprocs s _ h ?_ ?_ ?_ ?_ ?_ ?_
            · rfl
            · exact hcx
            · rfl
            · rfl
            · rfl
            · exact fun q2 hq2 => List.mem_of_mem_filter hq2
          exact inv_stopCaptureFinalize s.currentRecording upOk _ h2 hrem rfl
        | erroredSig15 =>
          rcases List.any_eq_true.1 halive with ⟨q, hq, hqb⟩
          have hqpid : q.pid = pid := by simpa using hqb
          have hrem : s.recProcs.filter (fun q2 => q2.pid != pid) = [] :=
            handle_rem_nil h hq hqpid
          have heq : (stopCaptureEndpoint CTrig.erroredSig15 upOk s).1
              = (stopCaptureFinalize s.currentRecording upOk
                  { s with
                    stopRequested := true,
                    recProcs := s.recProcs.filter
                      (fun q2 => q2.pid != pid) }).1 := by
            simp [stopCaptureEndpoint, recAlive, hh, hcx, halive]
          rw [heq]
          have h2 : Inv { s with
              stopRequested := true,
              recProcs := s.recProcs.filter (fun q2 => q2.pid != pid) } := by
            refine inv_subprocs s _ h ?_ ?_ ?_ ?_ ?_ ?_
            · rfl
            · exact hcx
            · rfl
            · rfl
            · rfl
            · exact fun q2 hq2 => List.mem_of_mem_filter hq2
          exact inv_stopCaptureFinalize s.currentRecording upOk _ h2 hrem rfl
        | erroredOther =>
          cases hfind : s.recProcs.find? (fun q2 => q2.pid == pid) with
          | none =>
            have heq : (stopCaptureEndpoint CTrig.erroredOther upOk s).1
                = { s with stopRequested := true } := by
              simp [stopCaptureEndpoint, recAlive, hh, hcx, halive, hfind]
            rw [heq]
            exact h1
          | some p =>
            have hpmem : p ∈ s.recProcs := List.mem_of_find?_eq_some hfind
            have hpid : p.pid = pid := by
              have := List.find?_some hfind
              simpa using this
            have hrem : s.recProcs.filter (fun q2 => q2.pid != pid) = [] :=
              handle_rem_nil h hpmem hpid
            have heq : (stopCaptureEndpoint CTrig.erroredOther upOk s).1
                = { s with
                      stopRequested := true,
                      recProcs := s.recProcs.filter (fun q2 => q2.pid != pid),
                      isCapturing := false,
                      sessions := updateFirst (bySid p.sid) markError s.sessions,
                      events := s.events ++ [Note.captureError] } := by
              simp [stopCaptureEndpoint, recAlive, hh, hcx, halive, hfind]
            rw [heq]
            refine inv_rebuild s _ h ?_ ?_ ?_ ?_ ?_
            · exact updateFirst_map_eq (bySid p.sid) markError Session.sid
                (fun x => rfl) s.sessions
            · exact updateFirst_sid markError (fun x => rfl) (bySid p.sid)
                s.sessions
            · exact updateFirst_no_rec (fun x => by simp [markError]) s.sessions
                h.nodupSids (fun x hx hrec => h.procRec p hpmem x hx hrec)
            · exact hrem
            · rfl

theorem inv_initSt : Inv initSt := by
  refine ⟨?_, ?_, ?_, ?_, ?_, ?_, ?_⟩ <;> simp [initSt]

theorem inv_step (e : Ev) (s : St) (h : Inv s) (hfrag : noCapTimeout e = true) :
    Inv (step e s) := by
  cases e with
  | startPreviewCmd => exact inv_startPreview s h
  | previewStart pid => exact inv_previewStartEv pid s h
  | previewEnd pid => exact inv_previewEndEv pid s h
  | previewErr pid => exact inv_previewErrEv pid s h
  | stopPreviewCmd trig => exact inv_stopPreview trig s h
  | startCaptureCmd n t d => exact inv_startCapture n t d s h
  | captureStart pid => exact inv_captureStartEv pid s h
  | captureEnd pid up => exact inv_captureEndEv pid up s h
  | captureErr pid sig => exact inv_captureErrEv pid sig s h
  | stopCaptureCmd trig up =>
    have ht : trig ≠ CTrig.timeout := by
      intro hteq
      rw [hteq] at hfrag
      simp [noCapTimeout] at hfrag
    exact inv_stopCaptureEndpoint trig up s h ht
  | updateNotesCmd sid t => exact inv_updateNotes sid t s h

theorem inv_run : ∀ (evs : List Ev) (s : St), Inv s →
    (∀ e ∈ evs, noCapTimeout e = true) → Inv (run s evs) := by
  intro evs
  induction evs with
  | nil => intro s h _; exact h
  | cons e rest ih =>
    intro s h hfr
    have h1 : Inv (step e s) := inv_step e s h (hfr e (List.mem_cons_self e rest))
    exact ih (step e s) h1 (fun e2 he2 => hfr e2 (List.mem_cons_of_mem e he2))

theorem inv_countRec (s : St) (h : Inv s) : countRec s.sessions ≤ 1 := by
  apply countRec_le_one s.sessions h.nodupSids
  intro x hx y hy hxr hyr
  have h1 := h.recCur x hx hxr
  have h2 := h.recCur y hy hyr
  rw [h1] at h2
  exact Option.some.inj h2

/-! ### The never-uploaded invariant (used for C7) -/

theorem safe_transport (sid : Nat) (s s' : St)
    (h1 : s'.recProcs = s.recProcs) (h2 : s'.isCapturing = s.isCapturing)
    (h3 : s'.currentRecording = s.currentRecording) (h4 : s'.nextSid = s.nextSid)
    (h : SafeSid sid s) : SafeSid sid s' := by
  refine ⟨?_, ?_, ?_⟩
  · rw [h1]; exact h.noProc
  · rw [h2, h3]; exact h.notCur
  · rw [h4]; exact h.sidLt

theorem safe_stopCaptureFinalize (sid : Nat) (recId : Option Nat) (upOk : Bool)
    (s2 : St) (h : SafeSid sid s2) (hcap : s2.isCapturing = true)
    (hrid : recId = s2.currentRecording) :
    SafeSid sid (stopCaptureFinalize recId upOk s2).1 ∧
      (sid ∈ (stopCaptureFinalize recId upOk s2).1.uploads → sid ∈ s2.uploads) := by
  cases recId with
  | none => exact ⟨h, fun hx => hx⟩
  | some rid =>
    have hrne : rid ≠ sid := by
      intro hre
      apply h.notCur hcap
      rw [← hrid, hre]
    have hup : ∀ (l : List Nat), sid ∈ l ++ [rid] → sid ∈ l := by
      intro l hx
      rcases List.mem_append.1 hx with hx1 | hx1
      · exact hx1
      · rw [List.mem_singleton] at hx1
        exact absurd hx1.symm hrne
    cases upOk with
    | true =>
      have heq : (stopCaptureFinalize (some rid) true s2).1
          = { s2 with
                sessions := updateFirst (bySid rid) markUploaded
                  (updateFirst (bySid rid) markCompleted s2.sessions),
                uploads := s2.uploads ++ [rid],
                events := s2.events ++ [Note.uploadComplete rid,
                  Note.captureEnded rid],
                isCapturing := false,
                currentRecording := none,
                stopRequested := false } := by
        simp [stopCaptureFinalize, finalizeUpload]
      rw [heq]
      exact ⟨⟨h.noProc, fun hco => by simp at hco, h.sidLt⟩, hup s2.uploads⟩
    | false =>
      have heq : (stopCaptureFinalize (some rid) false s2).1
          = { s2 with
                sessions := updateFirst (bySid rid) markUploadFailed
                  (updateFirst (bySid rid) markCompleted s2.sessions),
                uploads := s2.uploads ++ [rid],
                events := s2.events ++ [Note.uploadError, Note.captureEnded rid],
                isCapturing := false,
                currentRecording := none,
                stopRequested := false } := by
        simp [stopCaptureFinalize, finalizeUpload]
      rw [heq]
      exact ⟨⟨h.noProc, fun hco => by simp at hco, h.sidLt⟩, hup s2.uploads⟩

theorem safe_step (sid : Nat) (e : Ev) (s : St) (h : SafeSid sid s) :
    SafeSid sid (step e s) ∧ (sid ∈ (step e s).uploads → sid ∈ s.uploads) := by
  cases e with
  | startPreviewCmd =>
    show SafeSid sid (startPreview s).1 ∧
      (sid ∈ (startPreview s).1.uploads → sid ∈ s.uploads)
    unfold startPreview
    split
    · exact ⟨h, fun hx => hx⟩
    · exact ⟨safe_transport sid s _ rfl rfl rfl rfl h, fun hx => hx⟩
  | previewStart pid =>
    show SafeSid sid (previewStartEv pid s) ∧
      (sid ∈ (previewStartEv pid s).uploads → sid ∈ s.uploads)
    unfold previewStartEv
    split
    · exact ⟨safe_transport sid s _ rfl rfl rfl rfl h, fun hx => hx⟩
    · exact ⟨h, fun hx => hx⟩
  | previewEnd pid =>
    show SafeSid sid (previewEndEv pid s) ∧
      (sid ∈ (previewEndEv pid s).uploads → sid ∈ s.uploads)
    unfold previewEndEv
    split
    · exact ⟨safe_transport sid s _ rfl rfl rfl rfl h, fun hx => hx⟩
    · exact ⟨h, fun hx => hx⟩
  | previewErr pid =>
    show SafeSid sid (previewErrEv pid s) ∧
      (sid ∈ (previewErrEv pid s).uploads → sid ∈ s.uploads)
    unfold previewErrEv
    split
    · split
      · exact ⟨safe_transport sid s _ rfl rfl rfl rfl h, fun hx => hx⟩
      · exact ⟨safe_transport sid s _ rfl rfl rfl rfl h, fun hx => hx⟩
    · exact ⟨h, fun hx => hx⟩
  | stopPreviewCmd trig =>
    show SafeSid sid (stopPreview trig s).1 ∧
      (sid ∈ (stopPreview trig s).1.uploads → sid ∈ s.uploads)
    obtain ⟨_, b, c2, d2, _, u, f, _, _⟩ := stopPreview_frame trig s
    exact ⟨safe_transport sid s _ d2 b c2 f h, fun hx => by rw [u] at hx; exact hx⟩
  | startCaptureCmd n t d =>
    show SafeSid sid (startCapture n t d s).1 ∧
      (sid ∈ (startCapture n t d s).1.uploads → sid ∈ s.uploads)
    cases hc : s.isCapturing with
    | true =>
      have heq : (startCapture n t d s) = (s, StartCapRes.conflict) := by
        simp [startCapture, hc]
      rw [heq]
      exact ⟨h, fun hx => hx⟩
    | false =>
      have hsafe1 : SafeSid sid (if s.isPreviewing = true
            then (stopPreview t s).1 else s) ∧
          (if s.isPreviewing = true then (stopPreview t s).1 else s).uploads
            = s.uploads := by
        cases hp : s.isPreviewing with
        | false =>
          rw [if_neg (by simp)]
          exact ⟨h, rfl⟩
        | true =>
          rw [if_pos rfl]
          obtain ⟨_, b, c2, d2, _, u, f, _, _⟩ := stopPreview_frame t s
          exact ⟨safe_transport sid s _ d2 b c2 f h, u⟩
      cases d with
      | false =>
        have heq : (startCapture n t false s).1
            = (if s.isPreviewing = true then (stopPreview t s).1 else s) := by
          simp [startCapture, hc]
        rw [heq]
        exact ⟨hsafe1.1, fun hx => by rw [hsafe1.2] at hx; exact hx⟩
      | true =>
        have heq : (startCapture n t true s).1
            = { (if s.isPreviewing = true then (stopPreview t s).1 else s) with
                sessions := (if s.isPreviewing = true then (stopPreview t s).1
                  else s).sessions ++
                  [⟨(if s.isPreviewing = true then (stopPreview t s).1
                      else s).nextSid,
                    Status.recording, n, false, false, false, false, false⟩],
                isCapturing := true,
                currentRecording := some (if s.isPreviewing = true
                  then (stopPreview t s).1 else s).nextSid,
                stopRequested := false,
                previewHandle := none,
                ffmpegHandle := some (if s.isPreviewing = true
                  then (stopPreview t s).1 else s).nextPid,
                recProcs := (if s.isPreviewing = true then (stopPreview t s).1
                  else s).recProcs ++
                  [⟨(if s.isPreviewing = true then (stopPreview t s).1
                      else s).nextPid,
                    (if s.isPreviewing = true then (stopPreview t s).1
                      else s).nextSid, false⟩],
                nextPid := (if s.isPreviewing = true then (stopPreview t s).1
                  else s).nextPid + 1,
                nextSid := (if s.isPreviewing = true then (stopPreview t s).1
                  else s).nextSid + 1 } := by
          simp [startCapture, hc]
        rw [heq]
        refine ⟨⟨?_, ?_, ?_⟩, ?_⟩
        · intro q hq
          rcases List.mem_append.1 hq with hq1 | hq1
          · exact hsafe1.1.noProc q hq1
          · rw [List.mem_singleton] at hq1
            rw [hq1]
            exact Nat.ne_of_gt hsafe1.1.sidLt
        · intro _ hco
          have := Option.some.inj hco
          exact absurd this (Nat.ne_of_gt hsafe1.1.sidLt)
        · exact Nat.lt_succ_of_lt hsafe1.1.sidLt
        · intro hx
          rw [show ({ (if s.isPreviewing = true then (stopPreview t s).1 else s)
            with
                sessions := (if s.isPreviewing = true then (stopPreview t s).1
                  else s).sessions ++
                  [⟨(if s.isPreviewing = true then (stopPreview t s).1
                      else s).nextSid,
                    Status.recording, n, false, false, false, false, false⟩],
                isCapturing := true,
                currentRecording := some (if s.isPreviewing = true
                  then (stopPreview t s).1 else s).nextSid,
                stopRequested := false,
                previewHandle := none,
                ffmpegHandle := some (if s.isPreviewing = true
                  then (stopPreview t s).1 else s).nextPid,
                recProcs := (if s.isPreviewing = true then (stopPreview t s).1
                  else s).recProcs ++
                  [⟨(if s.isPreviewing = true then (stopPreview t s).1
                      else s).nextPid,
                    (if s.isPreviewing = true then (stopPreview t s).1
                      else s).nextSid, false⟩],
                nextPid := (if s.isPreviewing = true then (stopPreview t s).1
                  else s).nextPid + 1,
                nextSid := (if s.isPreviewing = true then (stopPreview t s).1
                  else s).nextSid + 1 } : St).uploads
            = (if s.isPreviewing = true then (stopPreview t s).1 else s).uploads
            from rfl, hsafe1.2] at hx
          exact hx
  | captureStart pid =>
    show SafeSid sid (captureStartEv pid s) ∧
      (sid ∈ (captureStartEv pid s).uploads → sid ∈ s.uploads)
    unfold captureStartEv
    split
    · exact ⟨h, fun hx => hx⟩
    next p hf =>
      split
      next hfired => exact ⟨h, fun hx => hx⟩
      next hfired =>
        refine ⟨⟨?_, h.notCur, h.sidLt⟩, fun hx => hx⟩
        intro q hq
        rcases List.mem_map.1 hq with ⟨p0, hp0, rfl⟩
        have hpd : (if (p0.pid == pid) = true
            then { p0 with startFired := true } else p0).sid = p0.sid := by
          split <;> rfl
        rw [hpd]
        exact h.noProc p0 hp0
  | captureEnd pid up =>
    show SafeSid sid (captureEndEv pid up s) ∧
      (sid ∈ (captureEndEv pid up s).uploads → sid ∈ s.uploads)
    cases hf : s.recProcs.find? (fun q => q.pid == pid) with
    | none =>
      have heq : captureEndEv pid up s = s := by simp [captureEndEv, hf]
      rw [heq]
      exact ⟨h, fun hx => hx⟩
    | some p =>
      have hpmem : p ∈ s.recProcs := List.mem_of_find?_eq_some hf
      have hpsid : p.sid ≠ sid := h.noProc p hpmem
      have hup : ∀ (l : List Nat), sid ∈ l ++ [p.sid] → sid ∈ l := by
        intro l hx
        rcases List.mem_append.1 hx with hx1 | hx1
        · exact hx1
        · rw [List.mem_singleton] at hx1
          exact absurd hx1.symm hpsid
      cases hsr : s.stopRequested with
      | true =>
        have heq : captureEndEv pid up s
            = { s with recProcs := s.recProcs.filter (fun q => q.pid != pid) } := by
          simp [captureEndEv, hf, hsr]
        rw [heq]
        exact ⟨⟨fun q hq => h.noProc q (List.mem_of_mem_filter hq),
          h.notCur, h.sidLt⟩, fun hx => hx⟩
      | false =>
        cases up with
        | true =>
          have heq : captureEndEv pid true s
              = { s with recProcs := s.recProcs.filter (fun q => q.pid != pid),
                         isCapturing := false,
                         sessions := updateFirst (bySid p.sid) markUploaded
                           (updateFirst (bySid p.sid) markCompleted s.sessions),
                         uploads := s.uploads ++ [p.sid],
                         events := s.events ++ [Note.uploadComplete p.sid,
                           Note.captureEnded p.sid],
                         currentRecording := none } := by
            simp [captureEndEv, finalizeUpload, hf, hsr]
          rw [heq]
          exact ⟨⟨fun q hq => h.noProc q (List.mem_of_mem_filter hq),
            fun hco => by simp at hco, h.sidLt⟩, hup s.uploads⟩
        | false =>
          have heq : captureEndEv pid false s
              = { s with recProcs := s.recProcs.filter (fun q => q.pid != pid),
                         isCapturing := false,
                         sessions := updateFirst (bySid p.sid) markUploadFailed
                           (updateFirst (bySid p.sid) markCompleted s.sessions),
                         uploads := s.uploads ++ [p.sid],
                         events := s.events ++ [Note.uploadError,
                           Note.captureEnded p.sid],
                         currentRecording := none } := by
            simp [captureEndEv, finalizeUpload, hf, hsr]
          rw [heq]
          exact ⟨⟨fun q hq => h.noProc q (List.mem_of_mem_filter hq),
            fun hco => by simp at hco, h.sidLt⟩, hup s.uploads⟩
  | captureErr pid sig =>
    show SafeSid sid (captureErrEv pid sig s) ∧
      (sid ∈ (captureErrEv pid sig s).uploads → sid ∈ s.uploads)
    cases hf : s.recProcs.find? (fun q => q.pid == pid) with
    | none =>
      have heq : captureErrEv pid sig s = s := by simp [captureErrEv, hf]
      rw [heq]
      exact ⟨h, fun hx => hx⟩
    | some p =>
      cases sig with
      | true =>
        have heq : captureErrEv pid true s
            = { s with recProcs := s.recProcs.filter (fun q => q.pid != pid) } := by
          simp [captureErrEv, hf]
        rw [heq]
        exact ⟨⟨fun q hq => h.noProc q (List.mem_of_mem_filter hq),
          h.notCur, h.sidLt⟩, fun hx => hx⟩
      | false =>
        have heq : captureErrEv pid false s
            = { s with recProcs := s.recProcs.filter (fun q => q.pid != pid),
                       isCapturing := false,
                       sessions := updateFirst (bySid p.sid) markError s.sessions,
                       events := s.events ++ [Note.captureError] } := by
          simp [captureErrEv, hf]
        rw [heq]
        exact ⟨⟨fun q hq => h.noProc q (List.mem_of_mem_filter hq),
          fun hco => by simp at hco, h.sidLt⟩, fun hx => hx⟩
  | stopCaptureCmd trig up =>
    show SafeSid sid (stopCaptureEndpoint trig up s).1 ∧
      (sid ∈ (stopCaptureEndpoint trig up s).1.uploads → sid ∈ s.uploads)
    cases hh : s.ffmpegHandle with
    | none =>
      have heq : stopCaptureEndpoint trig up s = (s, false) := by
        simp [stopCaptureEndpoint, hh]
      rw [heq]
      exact ⟨h, fun hx => hx⟩
    | some pid =>
      cases hcx : s.isCapturing with
      | false =>
        have heq : stopCaptureEndpoint trig up s = (s, false) := by
          simp [stopCaptureEndpoint, hh, hcx]
        rw [heq]
        exact ⟨h, fun hx => hx⟩
      | true =>
        have h1 : SafeSid sid { s with stopRequested := true } :=
          safe_transport sid s _ rfl rfl rfl rfl h
        cases halive : s.recProcs.any (fun q => q.pid == pid) with
        | false =>
          have heq : (stopCaptureEndpoint trig up s).1
              = (stopCaptureFinalize s.currentRecording up
                  { s with stopRequested := true }).1 := by
            simp [stopCaptureEndpoint, recAlive, hh, hcx, halive]
          rw [heq]
          obtain ⟨ha, hb⟩ := safe_stopCaptureFinalize sid s.currentRecording up
            { s with stopRequested := true } h1 hcx rfl
          exact ⟨ha, fun hx => hb hx⟩
        | true =>
          cases trig with
          | timeout =>
            have heq : (stopCaptureEndpoint CTrig.timeout up s).1
                = (stopCaptureFinalize s.currentRecording up
                    { s with stopRequested := true }).1 := by
              simp [stopCaptureEndpoint, recAlive, hh, hcx, halive]
            rw [heq]
            obtain ⟨ha, hb⟩ := safe_stopCaptureFinalize sid s.currentRecording up
              { s with stopRequested := true } h1 hcx rfl
            exact ⟨ha, fun hx => hb hx⟩
          | ended =>
            have heq : (stopCaptureEndpoint CTrig.ended up s).1
                = (stopCaptureFinalize s.currentRecording up
                    { s with
                      stopRequested := true,
                      recProcs := s.recProcs.filter
                        (fun q2 => q2.pid != pid) }).1 := by
              simp [stopCaptureEndpoint, recAlive, hh, hcx, halive]
            rw [heq]
            have h2 : SafeSid sid { s with
                stopRequested := true,
                recProcs := s.recProcs.filter (fun q2 => q2.pid != pid) } :=
              ⟨fun q hq => h.noProc q (List.mem_of_mem_filter hq),
               h.notCur, h.sidLt⟩
            obtain ⟨ha, hb⟩ := safe_stopCaptureFinalize sid s.currentRecording up
              { s with
                stopRequested := true,
                recProcs := s.recProcs.filter (fun q2 => q2.pid != pid) }
              h2 hcx rfl
            exact ⟨ha, fun hx => hb hx⟩
          | erroredSig15 =>
            have heq : (stopCaptureEndpoint CTrig.erroredSig15 up s).1
                = (stopCaptureFinalize s.currentRecording up
                    { s with
                      stopRequested := true,
                      recProcs := s.recProcs.filter
                        (fun q2 => q2.pid != pid) }).1 := by
              simp [stopCaptureEndpoint, recAlive, hh, hcx, halive]
            rw [heq]
            have h2 : SafeSid sid { s with
                stopRequested := true,
                recProcs := s.recProcs.filter (fun q2 => q2.pid != pid) } :=
              ⟨fun q hq => h.noProc q (List.mem_of_mem_filter hq),
               h.notCur, h.sidLt⟩
            obtain ⟨ha, hb⟩ := safe_stopCaptureFinalize sid s.currentRecording up
              { s with
                stopRequested := true,
                recProcs := s.recProcs.filter (fun q2 => q2.pid != pid) }
              h2 hcx rfl
            exact ⟨ha, fun hx => hb hx⟩
          | erroredOther =>
            cases hfind : s.recProcs.find? (fun q2 => q2.pid == pid) with
            | none =>
              have heq : (stopCaptureEndpoint CTrig.erroredOther up s).1
                  = { s with stopRequested := true } := by
                simp [stopCaptureEndpoint, recAlive, hh, hcx, halive, hfind]
              rw [heq]
              exact ⟨h1, fun hx => hx⟩
            | some p =>
              have heq : (stopCaptureEndpoint CTrig.erroredOther up s).1
                  = { s with
                        stopRequested := true,
                        recProcs := s.recProcs.filter (fun q2 => q2.pid != pid),
                        isCapturing := false,
                        sessions := updateFirst (bySid p.sid) markError s.sessions,
                        events := s.events ++ [Note.captureError] } := by
                simp [stopCaptureEndpoint, recAlive, hh, hcx, halive, hfind]
              rw [heq]
              exact ⟨⟨fun q hq => h.noProc q (List.mem_of_mem_filter hq),
                fun hco => by simp at hco, h.sidLt⟩, fun hx => hx⟩
  | updateNotesCmd sid2 t =>
    show SafeSid sid (updateNotes sid2 t s).1 ∧
      (sid ∈ (updateNotes sid2 t s).1.uploads → sid ∈ s.uploads)
    unfold updateNotes
    split
    · exact ⟨safe_transport sid s _ rfl rfl rfl rfl h, fun hx => hx⟩
    · exact ⟨h, fun hx => hx⟩

theorem safe_run (sid : Nat) : ∀ (evs : List Ev) (s : St), SafeSid sid s →
    sid ∉ s.uploads → sid ∉ (run s evs).uploads := by
  intro evs
  induction evs with
  | nil => intro s _ hn; exact hn
  | cons e rest ih =>
    intro s hs hn
    obtain ⟨hs1, hup⟩ := safe_step sid e s hs
    exact ih (step e s) hs1 (fun hx => hn (hup hx))

/-! ### Claim theorems -/

/-- C1 amended: `startCapture` rejects with a conflict whenever a capture
is already in progress and inserts its `recording` session only after
that check passes; along every trace in which no capture stop resolves by
its 2-second timeout (so no recording subprocess outlives its stop), at
most one session is in status `recording` at any instant.  (When a stop
does time out, the surviving subprocess's handlers can break the
invariant — see the counterexample.) -/
theorem c1_amended (evs : List Ev)
    (hfrag : ∀ e ∈ evs, noCapTimeout e = true) :
    countRec (run initSt evs).sessions ≤ 1 ∧
    (∀ (s : St) (n : String) (t : PTrig) (d : Bool),
      s.isCapturing = true → startCapture n t d s = (s, StartCapRes.conflict)) :=
  ⟨inv_countRec _ (inv_run evs initSt inv_initSt hfrag),
   fun s n t d hc => by simp [startCapture, hc]⟩

/-- C1 witness. -/
theorem c1_witness :
    (∀ e ∈ [Ev.startCaptureCmd "" PTrig.ended true,
            Ev.stopCaptureCmd CTrig.ended true,
            Ev.startCaptureCmd "" PTrig.ended true], noCapTimeout e = true) ∧
    (countRec (run initSt
        [Ev.startCaptureCmd "" PTrig.ended true,
         Ev.stopCaptureCmd CTrig.ended true,
         Ev.startCaptureCmd "" PTrig.ended true]).sessions ≤ 1 ∧
     (∀ (s : St) (n : String) (t : PTrig) (d : Bool),
       s.isCapturing = true → startCapture n t d s = (s, StartCapRes.conflict))) :=
  ⟨by decide,
   c1_amended
     [Ev.startCaptureCmd "" PTrig.ended true,
      Ev.stopCaptureCmd CTrig.ended true,
      Ev.startCaptureCmd "" PTrig.ended true] (by decide)⟩

/-- C1 counterexample: the single-`recording` invariant fails on the code.
Start a capture, stop it with the subprocess failing to exit within the
2-second bound (the endpoint finalizes by timeout and leaves the process
alive), start a second capture, let the zombie process of the first
capture report a non-signal-15 error (its handler unconditionally clears
`isCapturing`), then start a third capture: two sessions are now in
status `recording` at once. -/
theorem c1_counterexample :
    ¬ (countRec (run initSt
        [Ev.startCaptureCmd "" PTrig.ended true,
         Ev.stopCaptureCmd CTrig.timeout true,
         Ev.startCaptureCmd "" PTrig.ended true,
         Ev.captureErr 0 false,
         Ev.startCaptureCmd "" PTrig.ended true]).sessions ≤ 1) := by
  decide

/-- C2: when a stop resolves by its 2-second timeout, the late subprocess
`end` event finds `stopRequested` already cleared by the endpoint and
runs the full finalization a second time: the Upload Dispatcher is
invoked twice for the same session and `captureEnded` is emitted twice,
contradicting the documented intent that only the explicit stop path
finalizes and nothing is duplicated. -/
theorem c2_double_finalization :
    (run initSt
      [Ev.startCaptureCmd "t" PTrig.ended true,
       Ev.stopCaptureCmd CTrig.timeout true,
       Ev.captureEnd 0 true]).uploads = [0, 0] ∧
    ((run initSt
      [Ev.startCaptureCmd "t" PTrig.ended true,
       Ev.stopCaptureCmd CTrig.timeout true,
       Ev.captureEnd 0 true]).events.filter
        (fun n => n == Note.captureEnded 0)).length = 2 := by
  decide

/-- C3 counterexample: a preview stop that resolves by the 1-second
timeout succeeds and returns the state to Idle, but emits no
`previewStopped` notification, refuting the claim that the notification
is emitted exactly once regardless of which trigger fired. -/
theorem c3_counterexample :
    (stopPreview PTrig.timeout (run initSt [Ev.startPreviewCmd, Ev.previewStart 0])).2
        = true ∧
    (stopPreview PTrig.timeout
        (run initSt [Ev.startPreviewCmd, Ev.previewStart 0])).1.isPreviewing = false ∧
    Note.previewStopped ∉
      (stopPreview PTrig.timeout
        (run initSt [Ev.startPreviewCmd, Ev.previewStart 0])).1.events := by
  decide

/-- C4 counterexample: a recording subprocess error whose stderr does not
show signal-15 termination, delivered during an explicit stop (after
`stopRequested` was set), still produces a `captureError` notification,
refuting the claim that errors delivered in the stopping sub-state never
do. -/
theorem c4_counterexample :
    Note.captureError ∈
      (stopCaptureEndpoint CTrig.erroredOther true
        (run initSt [Ev.startCaptureCmd "" PTrig.ended true])).1.events := by
  decide

/-- C5 counterexample: when `startCapture` is called while Previewing and
the device guard then fails, the call fails with the device error and
creates no session, but the capture state is not the same as before the
call: the preview has already been stopped (`isPreviewing` flipped from
true to false), refuting the claim that no state change occurs. -/
theorem c5_counterexample :
    (startCapture "" PTrig.ended false
        (run initSt [Ev.startPreviewCmd, Ev.previewStart 0])).2
      = StartCapRes.deviceUnavailable ∧
    (run initSt [Ev.startPreviewCmd, Ev.previewStart 0]).isPreviewing = true ∧
    (startCapture "" PTrig.ended false
        (run initSt [Ev.startPreviewCmd, Ev.previewStart 0])).1.isPreviewing = false ∧
    (startCapture "" PTrig.ended false
        (run initSt [Ev.startPreviewCmd, Ev.previewStart 0])).1.sessions = [] := by
  decide

/-- C6 counterexample: `startCapture` while Previewing whose inner
`stopPreview` resolves by the 1-second timeout launches the recording
subprocess while the hung preview subprocess is still alive (the code
never force-kills), so the two subprocesses do run concurrently,
refuting the never-concurrent part of the claim. -/
theorem c6_counterexample :
    (run initSt [Ev.startPreviewCmd, Ev.previewStart 0,
                 Ev.startCaptureCmd "" PTrig.timeout true]).isCapturing = true ∧
    (run initSt [Ev.startPreviewCmd, Ev.previewStart 0,
                 Ev.startCaptureCmd "" PTrig.timeout true]).prevProcs ≠ [] ∧
    (run initSt [Ev.startPreviewCmd, Ev.previewStart 0,
                 Ev.startCaptureCmd "" PTrig.timeout true]).recProcs ≠ [] := by
  decide

/-- C8 counterexample: the upload backends are not persistence-free — on
a successful transfer `uploadToSFTP` (and `uploadToS3`) itself writes the
remote locator and `uploadedToRemote` onto the matching session document
(main.js 538-543 and 569-575), refuting the claim that the backends
perform no Session persistence writes. -/
theorem c8_counterexample :
    (uploadToSFTP 0 true
        [{ recordingId := 0, status := Status.completed, notes := "",
           uploadedToRemote := false, sftpLocationSet := false,
           s3LocationSet := false }]).1
      ≠ [{ recordingId := 0, status := Status.completed, notes := "",
           uploadedToRemote := false, sftpLocationSet := false,
           s3LocationSet := false }] ∧
    (uploadToSFTP 0 true
        [{ recordingId := 0, status := Status.completed, notes := "",
           uploadedToRemote := false, sftpLocationSet := false,
           s3LocationSet := false }]).1.map (fun d => d.sftpLocationSet) = [true] ∧
    (uploadToS3 0 true
        [{ recordingId := 0, status := Status.completed, notes := "",
           uploadedToRemote := false, sftpLocationSet := false,
           s3LocationSet := false }]).1.map (fun d => d.s3LocationSet) = [true] := by
  decide

/-- C3 amended: a `stopPreview` call while Previewing with a live
subprocess sets the stopping sub-state, resolves with success on the
first of {termination report, 1-unit timeout}, and on resolution the
state returns to Idle (`isPreviewing` false, `previewStopping` false)
regardless of the trigger; the `previewStopped` notification is emitted
exactly once when the resolution is by the subprocess's `end` or `error`
report, and is not emitted at all on the timeout path. -/
theorem c3_amended (s : St) (pid : Nat) (trig : PTrig)
    (hp : s.isPreviewing = true)
    (hh : s.previewHandle = some pid)
    (ha : s.prevProcs.any (fun p => p.pid == pid) = true) :
    (stopPreview trig s).2 = true ∧
    (stopPreview trig s).1.isPreviewing = false ∧
    (stopPreview trig s).1.previewStopping = false ∧
    (trig ≠ PTrig.timeout →
      (stopPreview trig s).1.events = s.events ++ [Note.previewStopped]) ∧
    (trig = PTrig.timeout → (stopPreview trig s).1.events = s.events) := by
  cases trig <;> simp [stopPreview, previewAlive, hh, hp, ha]

/-- C3 witness. -/
theorem c3_witness :
    ((run initSt [Ev.startPreviewCmd, Ev.previewStart 0]).isPreviewing = true ∧
     (run initSt [Ev.startPreviewCmd, Ev.previewStart 0]).previewHandle = some 0 ∧
     (run initSt [Ev.startPreviewCmd, Ev.previewStart 0]).prevProcs.any
       (fun p => p.pid == 0) = true) ∧
    ((stopPreview PTrig.ended (run initSt [Ev.startPreviewCmd, Ev.previewStart 0])).2
        = true ∧
     (stopPreview PTrig.ended
        (run initSt [Ev.startPreviewCmd, Ev.previewStart 0])).1.isPreviewing = false ∧
     (stopPreview PTrig.ended
        (run initSt [Ev.startPreviewCmd, Ev.previewStart 0])).1.previewStopping
        = false ∧
     (PTrig.ended ≠ PTrig.timeout →
       (stopPreview PTrig.ended
          (run initSt [Ev.startPreviewCmd, Ev.previewStart 0])).1.events =
        (run initSt [Ev.startPreviewCmd, Ev.previewStart 0]).events
          ++ [Note.previewStopped]) ∧
     (PTrig.ended = PTrig.timeout →
       (stopPreview PTrig.ended
          (run initSt [Ev.startPreviewCmd, Ev.previewStart 0])).1.events =
        (run initSt [Ev.startPreviewCmd, Ev.previewStart 0]).events)) :=
  ⟨⟨by decide, by decide, by decide⟩,
   c3_amended (run initSt [Ev.startPreviewCmd, Ev.previewStart 0]) 0 PTrig.ended
     (by decide) (by decide) (by decide)⟩

/-- C4 amended: error-notification suppression is asymmetric between the
two pipelines.  A preview subprocess error is suppressed exactly while
`previewStopping` is set (during a stop the error path emits only
`previewStopped`, never `previewError`; outside it, `previewError` is
always emitted).  A recording subprocess error is suppressed exactly when
its diagnostic shows signal-15 termination, independently of whether a
stop was requested: with any other diagnostic `captureError` is emitted
even in the stopping sub-state. -/
theorem c4_amended (s1 : St) (pid1 : Nat)
    (h1 : s1.prevProcs.any (fun p => p.pid == pid1) = true)
    (s2 : St) (pid2 : Nat) (p2 : RecProc)
    (h2 : s2.recProcs.find? (fun q => q.pid == pid2) = some p2) :
    (s1.previewStopping = true → (previewErrEv pid1 s1).events = s1.events) ∧
    (s1.previewStopping = false →
      (previewErrEv pid1 s1).events = s1.events ++ [Note.previewError]) ∧
    (s1.isPreviewing = true → s1.previewHandle = some pid1 →
      (stopPreview PTrig.errored s1).1.events = s1.events ++ [Note.previewStopped]) ∧
    ((captureErrEv pid2 true s2).events = s2.events) ∧
    ((captureErrEv pid2 false s2).events = s2.events ++ [Note.captureError]) := by
  refine ⟨?_, ?_, ?_, ?_, ?_⟩
  · intro hs; simp [previewErrEv, h1, hs]
  · intro hs; simp [previewErrEv, h1, hs]
  · intro hp hh; simp [stopPreview, previewAlive, hh, hp, h1]
  · simp [captureErrEv, h2]
  · simp [captureErrEv, h2]

/-- C4 witness. -/
theorem c4_witness :
    ((run initSt [Ev.startPreviewCmd]).prevProcs.any (fun p => p.pid == 0) = true ∧
     (run initSt [Ev.startCaptureCmd "" PTrig.ended true]).recProcs.find?
       (fun q => q.pid == 0) = some ⟨0, 0, false⟩) ∧
    (((run initSt [Ev.startPreviewCmd]).previewStopping = true →
       (previewErrEv 0 (run initSt [Ev.startPreviewCmd])).events =
         (run initSt [Ev.startPreviewCmd]).events) ∧
     ((run initSt [Ev.startPreviewCmd]).previewStopping = false →
       (previewErrEv 0 (run initSt [Ev.startPreviewCmd])).events =
         (run initSt [Ev.startPreviewCmd]).events ++ [Note.previewError]) ∧
     ((run initSt [Ev.startPreviewCmd]).isPreviewing = true →
       (run initSt [Ev.startPreviewCmd]).previewHandle = some 0 →
       (stopPreview PTrig.errored (run initSt [Ev.startPreviewCmd])).1.events =
         (run initSt [Ev.startPreviewCmd]).events ++ [Note.previewStopped]) ∧
     ((captureErrEv 0 true (run initSt [Ev.startCaptureCmd "" PTrig.ended true])).events
        = (run initSt [Ev.startCaptureCmd "" PTrig.ended true]).events) ∧
     ((captureErrEv 0 false
         (run initSt [Ev.startCaptureCmd "" PTrig.ended true])).events
        = (run initSt [Ev.startCaptureCmd "" PTrig.ended true]).events
          ++ [Note.captureError])) :=
  ⟨⟨by decide, by decide⟩,
   c4_amended (run initSt [Ev.startPreviewCmd]) 0
     (by decide)
     (run initSt [Ev.startCaptureCmd "" PTrig.ended true]) 0 ⟨0, 0, false⟩
     (by decide)⟩

/-- C5 amended: when the device guard exhausts its retries, `startCapture`
fails with the device-unavailable error, creates and persists no session,
and leaves `isCapturing`, `currentRecording`, the session store, the
upload log, the recording-subprocess set and the recording handle
unchanged; however if the call began in state Previewing the preview has
already been stopped before the guard ran, so the preview-side state may
differ from before the call. -/
theorem c5_amended (s : St) (notes : String) (trig : PTrig) (attempts : List Bool)
    (hc : s.isCapturing = false)
    (hdev : checkDeviceAccess attempts 3 = false) :
    (startCapture notes trig (checkDeviceAccess attempts 3) s).2
        = StartCapRes.deviceUnavailable ∧
    (startCapture notes trig (checkDeviceAccess attempts 3) s).1.sessions
        = s.sessions ∧
    (startCapture notes trig (checkDeviceAccess attempts 3) s).1.isCapturing
        = s.isCapturing ∧
    (startCapture notes trig (checkDeviceAccess attempts 3) s).1.currentRecording
        = s.currentRecording ∧
    (startCapture notes trig (checkDeviceAccess attempts 3) s).1.uploads
        = s.uploads ∧
    (startCapture notes trig (checkDeviceAccess attempts 3) s).1.recProcs
        = s.recProcs ∧
    (startCapture notes trig (checkDeviceAccess attempts 3) s).1.ffmpegHandle
        = s.ffmpegHandle := by
  rw [hdev]
  have hfr := stopPreview_frame trig s
  cases hp : s.isPreviewing <;>
    simp only [startCapture, hc, hp, Bool.false_eq_true, if_false, if_true,
      Bool.not_false, ite_true, ite_false] <;>
    simp_all

/-- C5 witness. -/
theorem c5_witness :
    (initSt.isCapturing = false ∧
     checkDeviceAccess [false, false, false] 3 = false) ∧
    ((startCapture "" PTrig.ended (checkDeviceAccess [false, false, false] 3)
        initSt).2 = StartCapRes.deviceUnavailable ∧
     (startCapture "" PTrig.ended (checkDeviceAccess [false, false, false] 3)
        initSt).1.sessions = initSt.sessions ∧
     (startCapture "" PTrig.ended (checkDeviceAccess [false, false, false] 3)
        initSt).1.isCapturing = initSt.isCapturing ∧
     (startCapture "" PTrig.ended (checkDeviceAccess [false, false, false] 3)
        initSt).1.currentRecording = initSt.currentRecording ∧
     (startCapture "" PTrig.ended (checkDeviceAccess [false, false, false] 3)
        initSt).1.uploads = initSt.uploads ∧
     (startCapture "" PTrig.ended (checkDeviceAccess [false, false, false] 3)
        initSt).1.recProcs = initSt.recProcs ∧
     (startCapture "" PTrig.ended (checkDeviceAccess [false, false, false] 3)
        initSt).1.ffmpegHandle = initSt.ffmpegHandle) :=
  ⟨⟨by decide, by decide⟩,
   c5_amended initSt "" PTrig.ended [false, false, false] (by decide) (by decide)⟩

/-- C6 amended: `startCapture` while Previewing issues exactly one
`stopPreview` cycle, which completes before the recording subprocess is
launched; when that cycle resolves via the subprocess's termination
report the preview subprocess is gone before the recording subprocess
exists (never concurrent), exactly one `previewStopped` is emitted, and
on success the final state is Recording.  (When the cycle instead
resolves by timeout the hung preview subprocess may still be running —
see the counterexample.) -/
theorem c6_amended (s : St) (notes : String) (pid : Nat) (b : Bool)
    (hc : s.isCapturing = false)
    (hp : s.isPreviewing = true)
    (hh : s.previewHandle = some pid)
    (hprev : s.prevProcs = [⟨pid, b⟩])
    (hrec : s.recProcs = []) :
    (startCapture notes PTrig.ended true s).2 = StartCapRes.started s.nextSid ∧
    (startCapture notes PTrig.ended true s).1.isCapturing = true ∧
    (startCapture notes PTrig.ended true s).1.isPreviewing = false ∧
    (startCapture notes PTrig.ended true s).1.prevProcs = [] ∧
    (startCapture notes PTrig.ended true s).1.recProcs
        = [⟨s.nextPid, s.nextSid, false⟩] ∧
    (startCapture notes PTrig.ended true s).1.events
        = s.events ++ [Note.previewStopped] := by
  simp [startCapture, stopPreview, previewAlive, hc, hp, hh, hprev, hrec]

/-- C6 witness. -/
theorem c6_witness :
    ((run initSt [Ev.startPreviewCmd, Ev.previewStart 0]).isCapturing = false ∧
     (run initSt [Ev.startPreviewCmd, Ev.previewStart 0]).isPreviewing = true ∧
     (run initSt [Ev.startPreviewCmd, Ev.previewStart 0]).previewHandle = some 0 ∧
     (run initSt [Ev.startPreviewCmd, Ev.previewStart 0]).prevProcs
        = [⟨0, true⟩] ∧
     (run initSt [Ev.startPreviewCmd, Ev.previewStart 0]).recProcs = []) ∧
    ((startCapture "" PTrig.ended true
        (run initSt [Ev.startPreviewCmd, Ev.previewStart 0])).2
      = StartCapRes.started
          (run initSt [Ev.startPreviewCmd, Ev.previewStart 0]).nextSid ∧
     (startCapture "" PTrig.ended true
        (run initSt [Ev.startPreviewCmd, Ev.previewStart 0])).1.isCapturing = true ∧
     (startCapture "" PTrig.ended true
        (run initSt [Ev.startPreviewCmd, Ev.previewStart 0])).1.isPreviewing = false ∧
     (startCapture "" PTrig.ended true
        (run initSt [Ev.startPreviewCmd, Ev.previewStart 0])).1.prevProcs = [] ∧
     (startCapture "" PTrig.ended true
        (run initSt [Ev.startPreviewCmd, Ev.previewStart 0])).1.recProcs
        = [⟨(run initSt [Ev.startPreviewCmd, Ev.previewStart 0]).nextPid,
             (run initSt [Ev.startPreviewCmd, Ev.previewStart 0]).nextSid, false⟩] ∧
     (startCapture "" PTrig.ended true
        (run initSt [Ev.startPreviewCmd, Ev.previewStart 0])).1.events
        = (run initSt [Ev.startPreviewCmd, Ev.previewStart 0]).events
          ++ [Note.previewStopped]) :=
  ⟨⟨by decide, by decide, by decide, by decide, by decide⟩,
   c6_amended (run initSt [Ev.startPreviewCmd, Ev.previewStart 0]) "" 0 true
     (by decide) (by decide) (by decide) (by decide) (by decide)⟩

/-- C8 amended: the coordinator is not the sole mutator of persisted
Session state.  On a successful transfer the SFTP and S3 backends
themselves write the remote locator and `uploadedToRemote` onto the
matching session document; they leave identity, status and notes of
every document untouched, write nothing at all on a failed transfer, and
the local-only dispatcher configuration reports success without touching
the store. -/
theorem c8_amended (docs : List VideoDoc) (rid : Nat) :
    (uploadToSFTP rid false docs).1 = docs ∧
    (uploadToS3 rid false docs).1 = docs ∧
    uploadFileDispatch UploadMethod.localOnly rid true docs = (docs, true) ∧
    (uploadToSFTP rid true docs).1.map (fun d => d.recordingId)
        = docs.map (fun d => d.recordingId) ∧
    (uploadToSFTP rid true docs).1.map (fun d => d.status)
        = docs.map (fun d => d.status) ∧
    (uploadToSFTP rid true docs).1.map (fun d => d.notes)
        = docs.map (fun d => d.notes) ∧
    (uploadToS3 rid true docs).1.map (fun d => d.status)
        = docs.map (fun d => d.status) ∧
    (∀ d, docs.find? (fun x => x.recordingId == rid) = some d →
      (uploadToSFTP rid true docs).1.find? (fun x => x.recordingId == rid)
        = some { d with sftpLocationSet := true, uploadedToRemote := true }) := by
  refine ⟨by simp [uploadToSFTP], by simp [uploadToS3], rfl, ?_, ?_, ?_, ?_, ?_⟩
  · simpa [uploadToSFTP] using
      updateFirst_map_eq (fun d => d.recordingId == rid)
        (fun d => { d with sftpLocationSet := true, uploadedToRemote := true })
        (fun d => d.recordingId) (fun x => rfl) docs
  · simpa [uploadToSFTP] using
      updateFirst_map_eq (fun d => d.recordingId == rid)
        (fun d => { d with sftpLocationSet := true, uploadedToRemote := true })
        (fun d => d.status) (fun x => rfl) docs
  · simpa [uploadToSFTP] using
      updateFirst_map_eq (fun d => d.recordingId == rid)
        (fun d => { d with sftpLocationSet := true, uploadedToRemote := true })
        (fun d => d.notes) (fun x => rfl) docs
  · simpa [uploadToS3] using
      updateFirst_map_eq (fun d => d.recordingId == rid)
        (fun d => { d with s3LocationSet := true, uploadedToRemote := true })
        (fun d => d.status) (fun x => rfl) docs
  · intro d hd
    have := find?_updateFirst (fun x : VideoDoc => x.recordingId == rid)
      (fun d => { d with sftpLocationSet := true, uploadedToRemote := true })
      (fun y => rfl) docs
    simp [uploadToSFTP, this, hd]

/-- C8 witness. -/
theorem c8_witness :
    (uploadToSFTP 7 false
        [{ recordingId := 7, status := Status.completed, notes := "n",
           uploadedToRemote := false, sftpLocationSet := false,
           s3LocationSet := false }]).1
      = [{ recordingId := 7, status := Status.completed, notes := "n",
           uploadedToRemote := false, sftpLocationSet := false,
           s3LocationSet := false }] ∧
    (uploadToS3 7 false
        [{ recordingId := 7, status := Status.completed, notes := "n",
           uploadedToRemote := false, sftpLocationSet := false,
           s3LocationSet := false }]).1
      = [{ recordingId := 7, status := Status.completed, notes := "n",
           uploadedToRemote := false, sftpLocationSet := false,
           s3LocationSet := false }] ∧
    uploadFileDispatch UploadMethod.localOnly 7 true
        [{ recordingId := 7, status := Status.completed, notes := "n",
           uploadedToRemote := false, sftpLocationSet := false,
           s3LocationSet := false }]
      = ([{ recordingId := 7, status := Status.completed, notes := "n",
            uploadedToRemote := false, sftpLocationSet := false,
            s3LocationSet := false }], true) ∧
    (uploadToSFTP 7 true
        [{ recordingId := 7, status := Status.completed, notes := "n",
           uploadedToRemote := false, sftpLocationSet := false,
           s3LocationSet := false }]).1.map (fun d => d.recordingId)
      = [({ recordingId := 7, status := Status.completed, notes := "n",
            uploadedToRemote := false, sftpLocationSet := false,
            s3LocationSet := false } : VideoDoc)].map (fun d => d.recordingId) ∧
    (uploadToSFTP 7 true
        [{ recordingId := 7, status := Status.completed, notes := "n",
           uploadedToRemote := false, sftpLocationSet := false,
           s3LocationSet := false }]).1.map (fun d => d.status)
      = [({ recordingId := 7, status := Status.completed, notes := "n",
            uploadedToRemote := false, sftpLocationSet := false,
            s3LocationSet := false } : VideoDoc)].map (fun d => d.status) ∧
    (uploadToSFTP 7 true
        [{ recordingId := 7, status := Status.completed, notes := "n",
           uploadedToRemote := false, sftpLocationSet := false,
           s3LocationSet := false }]).1.map (fun d => d.notes)
      = [({ recordingId := 7, status := Status.completed, notes := "n",
            uploadedToRemote := false, sftpLocationSet := false,
            s3LocationSet := false } : VideoDoc)].map (fun d => d.notes) ∧
    (uploadToS3 7 true
        [{ recordingId := 7, status := Status.completed, notes := "n",
           uploadedToRemote := false, sftpLocationSet := false,
           s3LocationSet := false }]).1.map (fun d => d.status)
      = [({ recordingId := 7, status := Status.completed, notes := "n",
            uploadedToRemote := false, sftpLocationSet := false,
            s3LocationSet := false } : VideoDoc)].map (fun d => d.status) ∧
    (∀ d, [({ recordingId := 7, status := Status.completed, notes := "n",
              uploadedToRemote := false, sftpLocationSet := false,
              s3LocationSet := false } : VideoDoc)].find?
            (fun x => x.recordingId == 7) = some d →
      (uploadToSFTP 7 true
          [{ recordingId := 7, status := Status.completed, notes := "n",
             uploadedToRemote := false, sftpLocationSet := false,
             s3LocationSet := false }]).1.find? (fun x => x.recordingId == 7)
        = some { d with sftpLocationSet := true, uploadedToRemote := true }) :=
  c8_amended
    [{ recordingId := 7, status := Status.completed, notes := "n",
       uploadedToRemote := false, sftpLocationSet := false,
       s3LocationSet := false }] 7

/-- C9: `updateNotes` is permitted whatever the session's status (no
status is inspected), returns true exactly when a session with the given
id exists, performs no write and returns false when none does, and is
idempotent: repeating the same call changes nothing further and returns
the same result. -/
theorem c9 (s : St) (sid : Nat) (text : String) :
    ((updateNotes sid text s).2 = true ↔ ∃ x ∈ s.sessions, x.sid = sid) ∧
    ((updateNotes sid text s).2 = false → (updateNotes sid text s).1 = s) ∧
    updateNotes sid text (updateNotes sid text s).1 = updateNotes sid text s := by
  cases ha : s.sessions.any (bySid sid) with
  | false =>
    have hne : ¬ ∃ x ∈ s.sessions, x.sid = sid := by
      rintro ⟨x, hx, hsid⟩
      have : s.sessions.any (bySid sid) = true :=
        List.any_eq_true.2 ⟨x, hx, by simp [bySid, hsid]⟩
      simp [ha] at this
    refine ⟨by simp [updateNotes, ha, hne], by intro _; simp [updateNotes, ha], ?_⟩
    simp [updateNotes, ha]
  | true =>
    have hex : ∃ x ∈ s.sessions, x.sid = sid := by
      rcases List.any_eq_true.1 ha with ⟨x, hx, hb⟩
      exact ⟨x, hx, by simpa [bySid] using hb⟩
    have hmap : (updateFirst (bySid sid) (fun x => { x with notes := text })
        s.sessions).map Session.sid = s.sessions.map Session.sid :=
      updateFirst_map_eq (bySid sid) (fun x => { x with notes := text })
        Session.sid (fun x => rfl) s.sessions
    have hany : ∀ l : List Session,
        l.any (bySid sid) = (l.map Session.sid).any (fun n => n == sid) := by
      intro l; induction l with
      | nil => rfl
      | cons a rest ih => simp [bySid, ih]
    have ha2 : (updateFirst (bySid sid) (fun x => { x with notes := text })
        s.sessions).any (bySid sid) = true := by
      rw [hany, hmap, ← hany, ha]
    have hidem := updateFirst_idem (bySid sid) (fun x => { x with notes := text })
        (fun x hx => hx) (fun x _ => rfl) s.sessions
    refine ⟨by simp [updateNotes, ha, hex], by simp [updateNotes, ha], ?_⟩
    simp [updateNotes, ha, ha2, hidem]

/-- C9 witness. -/
theorem c9_witness :
    ((updateNotes 0 "x" initSt).2 = true ↔ ∃ x ∈ initSt.sessions, x.sid = 0) ∧
    ((updateNotes 0 "x" initSt).2 = false → (updateNotes 0 "x" initSt).1 = initSt) ∧
    updateNotes 0 "x" (updateNotes 0 "x" initSt).1 = updateNotes 0 "x" initSt :=
  c9 initSt 0 "x"

/-- C10: `startPreview` returns success as soon as the subprocess is set
up, while `isPreviewing` is still false (it is only set by the later
`start` callback); in that window a second `startPreview` passes the
conflict guard again and `startCapture` proceeds without stopping the
pending preview (its notification log gains no `previewStopped`); only
the `start` callback makes `isPreviewing` true. -/
theorem c10 (s : St) (hp : s.isPreviewing = false) (hc : s.isCapturing = false) :
    (startPreview s).2 = true ∧
    (startPreview s).1.isPreviewing = false ∧
    (startPreview (startPreview s).1).2 = true ∧
    (∀ n t, (startCapture n t true (startPreview s).1).2
        = StartCapRes.started s.nextSid ∧
      (startCapture n t true (startPreview s).1).1.events
        = (startPreview s).1.events) ∧
    (previewStartEv s.nextPid (startPreview s).1).isPreviewing = true := by
  simp [startPreview, previewStartEv, startCapture, hp, hc]

/-- C10 witness. -/
theorem c10_witness :
    (initSt.isPreviewing = false ∧ initSt.isCapturing = false) ∧
    ((startPreview initSt).2 = true ∧
     (startPreview initSt).1.isPreviewing = false ∧
     (startPreview (startPreview initSt).1).2 = true ∧
     (∀ n t, (startCapture n t true (startPreview initSt).1).2
         = StartCapRes.started initSt.nextSid ∧
       (startCapture n t true (startPreview initSt).1).1.events
         = (startPreview initSt).1.events) ∧
     (previewStartEv initSt.nextPid (startPreview initSt).1).isPreviewing = true) :=
  ⟨⟨by decide, by decide⟩, c10 initSt (by decide) (by decide)⟩

/-- C7: when the recording subprocess reports an error not classified as
signal-15 termination (abnormal termination: device disconnect, encoder
crash) for a session for which no stop was requested and no upload has
happened, the handler clears `isCapturing` (capture state returns to
Idle), persists status `error` with the failure detail on that session,
emits exactly one `captureError` notification, invokes no upload in this
step, and the Upload Dispatcher is never invoked for that session in any
continuation of the execution. -/
theorem c7 (s : St) (pid : Nat) (p : RecProc) (X : Session)
    (hfind : s.recProcs.find? (fun q => q.pid == pid) = some p)
    (_hnostop : s.stopRequested = false)
    (huniq : ∀ q ∈ s.recProcs, q.pid ≠ pid → q.sid ≠ p.sid)
    (hlt : p.sid < s.nextSid)
    (hX : s.sessions.find? (bySid p.sid) = some X)
    (hnoup : p.sid ∉ s.uploads) :
    (captureErrEv pid false s).isCapturing = false ∧
    (captureErrEv pid false s).events = s.events ++ [Note.captureError] ∧
    (captureErrEv pid false s).uploads = s.uploads ∧
    (captureErrEv pid false s).sessions.find? (bySid p.sid)
        = some (markError X) ∧
    (∀ evs, p.sid ∉ (run (captureErrEv pid false s) evs).uploads) := by
  have heq : captureErrEv pid false s
      = { s with recProcs := s.recProcs.filter (fun q => q.pid != pid),
                 isCapturing := false,
                 sessions := updateFirst (bySid p.sid) markError s.sessions,
                 events := s.events ++ [Note.captureError] } := by
    simp [captureErrEv, hfind]
  have hsafe : SafeSid p.sid (captureErrEv pid false s) := by
    rw [heq]
    refine ⟨?_, ?_, ?_⟩
    · intro q hq
      have hq2 := List.mem_filter.1 hq
      have hqpid : q.pid ≠ pid := by simpa using hq2.2
      exact huniq q hq2.1 hqpid
    · intro hco
      simp at hco
    · exact hlt
  have hnoup2 : p.sid ∉ (captureErrEv pid false s).uploads := by
    rw [heq]
    exact hnoup
  refine ⟨?_, ?_, ?_, ?_, ?_⟩
  · rw [heq]
  · rw [heq]
  · rw [heq]
  · rw [heq]
    show (updateFirst (bySid p.sid) markError s.sessions).find? (bySid p.sid)
        = some (markError X)
    rw [find?_updateFirst (bySid p.sid) markError (fun y => rfl) s.sessions, hX]
    rfl
  · intro evs
    exact safe_run p.sid evs (captureErrEv pid false s) hsafe hnoup2

/-- C7 witness. -/
theorem c7_witness :
    ((run initSt [Ev.startCaptureCmd "" PTrig.ended true,
        Ev.captureStart 0]).recProcs.find? (fun q => q.pid == 0)
        = some ⟨0, 0, true⟩ ∧
     (run initSt [Ev.startCaptureCmd "" PTrig.ended true,
        Ev.captureStart 0]).stopRequested = false ∧
     (∀ q ∈ (run initSt [Ev.startCaptureCmd "" PTrig.ended true,
        Ev.captureStart 0]).recProcs, q.pid ≠ 0 → q.sid ≠ 0) ∧
     (0 : Nat) < (run initSt [Ev.startCaptureCmd "" PTrig.ended true,
        Ev.captureStart 0]).nextSid ∧
     (run initSt [Ev.startCaptureCmd "" PTrig.ended true,
        Ev.captureStart 0]).sessions.find? (bySid 0)
        = some ⟨0, Status.recording, "", false, false, false, false, false⟩ ∧
     (0 : Nat) ∉ (run initSt [Ev.startCaptureCmd "" PTrig.ended true,
        Ev.captureStart 0]).uploads) ∧
    ((captureErrEv 0 false (run initSt [Ev.startCaptureCmd "" PTrig.ended true,
        Ev.captureStart 0])).isCapturing = false ∧
     (captureErrEv 0 false (run initSt [Ev.startCaptureCmd "" PTrig.ended true,
        Ev.captureStart 0])).events
        = (run initSt [Ev.startCaptureCmd "" PTrig.ended true,
            Ev.captureStart 0]).events ++ [Note.captureError] ∧
     (captureErrEv 0 false (run initSt [Ev.startCaptureCmd "" PTrig.ended true,
        Ev.captureStart 0])).uploads
        = (run initSt [Ev.startCaptureCmd "" PTrig.ended true,
            Ev.captureStart 0]).uploads ∧
     (captureErrEv 0 false (run initSt [Ev.startCaptureCmd "" PTrig.ended true,
        Ev.captureStart 0])).sessions.find? (bySid 0)
        = some (markError
            ⟨0, Status.recording, "", false, false, false, false, false⟩) ∧
     (∀ evs, (0 : Nat) ∉ (run (captureErrEv 0 false
        (run initSt [Ev.startCaptureCmd "" PTrig.ended true,
          Ev.captureStart 0])) evs).uploads)) :=
  ⟨⟨by decide, by decide, by decide, by decide, by decide, by decide⟩,
   c7 (run initSt [Ev.startCaptureCmd "" PTrig.ended true, Ev.captureStart 0])
     0 ⟨0, 0, true⟩ ⟨0, Status.recording, "", false, false, false, false, false⟩
     (by decide) (by decide) (by decide) (by decide) (by decide) (by decide)⟩

end VidCap
